import Mathlib

/-!
Verification development for the icinga2-migration-utils repository.

The Python sources are shallowly embedded: Python dictionaries of the
Icinga1 cache records and Icinga2 API records become Lean structures or
association lists, Python numbers become rationals, fallible code returns
Except, and each migration loop becomes an explicit step function folded
over the batch while recording the API calls it would issue.
-/

namespace Icinga

/-- Embedding of a Python (JSON-like) value as stored in the nested
record bags of Icinga2 API results and in `nested_dict` structures.
`PyVal.none` is Python None. -/
inductive PyVal where
  | none : PyVal
  | bool : Bool → PyVal
  | num : ℚ → PyVal
  | str : String → PyVal
  | dict : List (String × PyVal) → PyVal
deriving Repr

/-- Is this embedded value Python None? -/
def PyVal.isNone : PyVal → Bool
  | .none => true
  | _ => false

/-- Python equality between an embedded value and a string (Python returns
False when comparing a string to a non-string). -/
def PyVal.eqStr : PyVal → String → Bool
  | .str a, b => a == b
  | _, _ => false

/-- Python truthiness of an embedded value (used by `not ndict(...)[k]`
and by the `vars.nosla` checks). Empty dict, empty string, zero and None
are falsy. -/
def pyTruthy : PyVal → Bool
  | .none => false
  | .bool b => b
  | .num q => q ≠ 0
  | .str s => s ≠ ""
  | .dict kvs => !kvs.isEmpty

mutual

/-- Embedding of `boltons.iterutils.remap(data, lambda p, k, v: v is not None)`
as used by `utils.ndict`: recursively drop every dictionary entry whose value
is None. -/
def dropNone : PyVal → PyVal
  | .dict kvs => .dict (dropNoneEntries kvs)
  | v => v

/-- Entry-wise worker for `dropNone`. -/
def dropNoneEntries : List (String × PyVal) → List (String × PyVal)
  | [] => []
  | (k, v) :: rest =>
    if v.isNone then dropNoneEntries rest
    else (k, dropNone v) :: dropNoneEntries rest

end

/-- Embedding of a chain of `__getitem__` accesses on a `nested_dict`
(the object returned by `utils.ndict` after the None-dropping remap):
a missing key auto-vivifies to an empty nested dict, so the rest of the
chain keeps yielding empty dicts; indexing a non-dict leaf with a string
key raises TypeError in Python, embedded as an error result. -/
def ndChain : PyVal → List String → Except String PyVal
  | v, [] => .ok v
  | .dict kvs, k :: rest =>
    match kvs.lookup k with
    | some v => ndChain v rest
    | Option.none => .ok (.dict [])
  | _, _ :: _ => .error "TypeError"

/-- Embedding of `utils.ndict(data)` followed by a chain of key accesses:
`ndict(d)[k1][k2]...[kn]`. -/
def ndictAccess (d : List (String × PyVal)) (ks : List String) : Except String PyVal :=
  ndChain (dropNone (.dict d)) ks

/-- Fold a list of digit characters into a natural number. -/
def digitsToNat (cs : List Char) : Nat :=
  cs.foldl (fun n c => n * 10 + (c.toNat - 48)) 0

/-- An exact fraction: the numeric value denoted by a decimal float
literal of the cache or API data. Kept unnormalized so that every
operation computes by kernel reduction; each fraction the embedding
builds has a positive denominator. -/
structure Frac where
  num : Int
  den : Nat
deriving DecidableEq, Repr

/-- The rational value of a fraction. -/
def Frac.toRat (f : Frac) : ℚ := (f.num : ℚ) / (f.den : ℚ)

/-- Numeric equality of two fractions by cross multiplication: the
equality Python tests with `==` / `!=` on the parsed float values. -/
def Frac.eqb (a b : Frac) : Bool :=
  a.num * (b.den : Int) == b.num * (a.den : Int)

/-- Multiply a fraction by a natural constant (the ×60 unit conversion). -/
def Frac.scale (a : Frac) (k : Nat) : Frac := ⟨a.num * (k : Int), a.den⟩

/-- The fraction denoting a whole number. -/
def Frac.ofInt (n : Int) : Frac := ⟨n, 1⟩

/-- Negate a fraction. -/
def Frac.neg (a : Frac) : Frac := ⟨-a.num, a.den⟩

/-- Cross-multiplication equality agrees with equality of the denoted
rationals whenever both denominators are nonzero. -/
theorem Frac.eqb_iff_toRat (a b : Frac) (ha : a.den ≠ 0) (hb : b.den ≠ 0) :
    a.eqb b = true ↔ a.toRat = b.toRat := by
  have ha' : ((a.den : ℚ)) ≠ 0 := by exact_mod_cast ha
  have hb' : ((b.den : ℚ)) ≠ 0 := by exact_mod_cast hb
  rw [Frac.eqb, Frac.toRat, Frac.toRat, div_eq_div_iff ha' hb', beq_iff_eq]
  constructor
  · intro h
    exact_mod_cast congrArg (fun z : Int => (z : ℚ)) h
  · intro h
    exact_mod_cast h

/-- Parse an unsigned decimal literal (digits with an optional fractional
part) into the exact fraction it denotes; this is the numeric value of
Python `float()` on the numeric strings stored in the Icinga1 cache. -/
def parseUDec (cs : List Char) : Option Frac :=
  let intPart := cs.takeWhile Char.isDigit
  let rest := cs.dropWhile Char.isDigit
  if rest.isEmpty then
    if intPart.isEmpty then Option.none else some (Frac.ofInt (digitsToNat intPart))
  else if rest.head? = some '.' && rest.tail.all Char.isDigit
      && !(intPart.isEmpty && rest.tail.isEmpty) then
    some ⟨(digitsToNat intPart : Int) * (10 : Int) ^ rest.tail.length
            + (digitsToNat rest.tail : Int),
          10 ^ rest.tail.length⟩
  else Option.none

/-- Embedding of Python `float(s)` for the decimal strings appearing in
cache files; None when `float` would raise ValueError. -/
def parseFloat (s : String) : Option Frac :=
  let cs := s.toList
  if cs.head? = some '-' then (parseUDec cs.tail).map Frac.neg
  else if cs.head? = some '+' then parseUDec cs.tail
  else parseUDec cs

/-- Every fraction produced by the decimal parser has a nonzero
denominator. -/
theorem parseUDec_den_ne (cs : List Char) (q : Frac) (h : parseUDec cs = some q) :
    q.den ≠ 0 := by
  rw [parseUDec] at h
  split at h
  · split at h
    · exact absurd h (by simp)
    · cases h; simp [Frac.ofInt]
  · split at h
    · cases h; positivity
    · exact absurd h (by simp)

/-- Every fraction produced by `parseFloat` has a nonzero denominator. -/
theorem parseFloat_den_ne (s : String) (q : Frac) (h : parseFloat s = some q) :
    q.den ≠ 0 := by
  rw [parseFloat] at h
  split at h
  · rcases hu : parseUDec s.toList.tail with _ | q' <;> rw [hu] at h <;> simp at h
    cases h
    simpa [Frac.neg] using parseUDec_den_ne _ _ hu
  · split at h
    · exact parseUDec_den_ne _ _ h
    · exact parseUDec_den_ne _ _ h

/-- Embedding of Python `int(s)` for the integer strings of downtime
records; None when `int` would raise ValueError. -/
def parseInt : String → Option Int
  | s =>
    match s.toList with
    | '-' :: cs =>
      if !cs.isEmpty && cs.all Char.isDigit then some (-(digitsToNat cs : Int)) else Option.none
    | '+' :: cs =>
      if !cs.isEmpty && cs.all Char.isDigit then some (digitsToNat cs : Int) else Option.none
    | cs =>
      if !cs.isEmpty && cs.all Char.isDigit then some (digitsToNat cs : Int) else Option.none

end Icinga

namespace Icinga

/-- Does the second list start with the first? -/
def listStartsWith {α : Type} [BEq α] : List α → List α → Bool
  | [], _ => true
  | _ :: _, [] => false
  | a :: as, b :: bs => a == b && listStartsWith as bs

/-- Does the pattern occur as a contiguous run of the list? -/
def listFindSub {α : Type} [BEq α] (pat : List α) : List α → Bool
  | [] => pat.isEmpty
  | c :: rest => listStartsWith pat (c :: rest) || listFindSub pat rest

/-- Substring test, embedding the Python `in` operator on strings. -/
def strContains (s pat : String) : Bool :=
  listFindSub pat.toList s.toList

/-- The code point of a character lowered to ASCII lowercase, embedding
the effect of Python `str.lower` on the ASCII cache data. -/
def charLowerNat (c : Char) : Nat :=
  if 65 ≤ c.toNat && c.toNat ≤ 90 then c.toNat + 32 else c.toNat

/-- Case-insensitive substring test: the embedding of
`pat in s.lower()` for an already-lowercase pattern. -/
def strContainsCI (s pat : String) : Bool :=
  listFindSub (pat.toList.map charLowerNat) (s.toList.map charLowerNat)

/-- Embedding of the Python `in` operator applied to an embedded value:
key membership for dicts, substring for strings, TypeError otherwise. -/
def pyContainsKey : PyVal → String → Except String Bool
  | .dict kvs, k => .ok ((kvs.lookup k).isSome)
  | .str s, k => .ok (strContains s k)
  | _, _ => .error "TypeError"

/-- Icinga1 host record (flat cache record; the fields `compare_hosts`
reads, all stored as strings by the cache parser). -/
structure Host1 where
  check_interval : String
  max_check_attempts : String
  retry_interval : String
  notifications_enabled : String
  notes : Option String
deriving DecidableEq, Repr

/-- Icinga2 host record: the `attrs` bag of the API result, with numeric
check attributes (JSON numbers) and the custom-variable bag `vars`
(a dict, or None when unset). -/
structure Host2 where
  check_interval : Frac
  max_check_attempts : Frac
  retry_interval : Frac
  vars : PyVal
deriving Repr

/-- The three attributes `compare_hosts` compares
(`compare_attributes = [check_interval, max_check_attempts, retry_interval]`). -/
inductive HAttr where
  | check_interval
  | max_check_attempts
  | retry_interval
deriving DecidableEq, Repr

/-- Source-side raw attribute value (Icinga1 stores strings). -/
def Host1.attr : Host1 → HAttr → String
  | h, .check_interval => h.check_interval
  | h, .max_check_attempts => h.max_check_attempts
  | h, .retry_interval => h.retry_interval

/-- Target-side attribute value (Icinga2 API returns numbers). -/
def Host2.attr : Host2 → HAttr → Frac
  | h, .check_interval => h.check_interval
  | h, .max_check_attempts => h.max_check_attempts
  | h, .retry_interval => h.retry_interval

/-- `attrib in [retry_interval, check_interval]` of the source: the
attributes whose Icinga1 value is multiplied by 60. -/
def HAttr.isInterval : HAttr → Bool
  | .check_interval => true
  | .max_check_attempts => false
  | .retry_interval => true

/-- One attribute comparison of the `compare_hosts` loop:
`icinga1_attrib = float(icinga1_host[attrib])`, times 60 for interval
attributes, compared against `float(icinga2_host[attrs][attrib])`; on
inequality the entry `(hostname, raw source value, raw target value)` is
recorded (the hostname is added by the caller). -/
def compareAttr (h1 : Host1) (h2 : Host2) (a : HAttr) :
    Except String (Option (String × Frac)) :=
  match parseFloat (h1.attr a) with
  | Option.none => .error "ValueError"
  | some q =>
    let q1 := if a.isInterval then q.scale 60 else q
    .ok (if q1.eqb (h2.attr a) then Option.none else some (h1.attr a, h2.attr a))

/-- Per-host outcome of the `compare_hosts` body: the no-SLA flag and one
optional discrepancy entry per compared attribute. -/
structure HostPairDiff where
  nosla : Bool
  ci : Option (String × Frac)
  mca : Option (String × Frac)
  ri : Option (String × Frac)
deriving DecidableEq, Repr

/-- Select the optional entry of one attribute. -/
def HostPairDiff.attrEntry : HostPairDiff → HAttr → Option (String × Frac)
  | d, .check_interval => d.ci
  | d, .max_check_attempts => d.mca
  | d, .retry_interval => d.ri

/-- The chain `ndict(icinga2_host)[attrs][vars][nosla]` used by the
no-SLA comparison of `compare_hosts`. -/
def host2NoslaVal (h2 : Host2) : Except String PyVal :=
  ndictAccess [("attrs", .dict [("vars", h2.vars)])] ["attrs", "vars", "nosla"]

/-- The no-SLA comparison of `compare_hosts`: Icinga1 notes equal to the
sentinel and the Icinga2 custom variable falsy; its report line also
evaluates `nosla in icinga2_host[attrs][vars]`, which can raise. -/
def noslaCheck (h1 : Host1) (h2 : Host2) : Except String Bool :=
  if h1.notes == some "no-sla" then
    match host2NoslaVal h2 with
    | .error e => .error e
    | .ok v =>
      if !pyTruthy v then
        match pyContainsKey h2.vars "nosla" with
        | .error e => .error e
        | .ok _ => .ok true
      else .ok false
  else .ok false

/-- Body of the `compare_hosts` loop for one hostname present on both
sides: the no-SLA check, then the three attribute comparisons in source
order. -/
def compareOneHost (h1 : Host1) (h2 : Host2) : Except String HostPairDiff :=
  match noslaCheck h1 h2 with
  | .error e => .error e
  | .ok nosla =>
    match compareAttr h1 h2 .check_interval with
    | .error e => .error e
    | .ok ci =>
      match compareAttr h1 h2 .max_check_attempts with
      | .error e => .error e
      | .ok mca =>
        match compareAttr h1 h2 .retry_interval with
        | .error e => .error e
        | .ok ri => .ok ⟨nosla, ci, mca, ri⟩

/-- The `result` defaultdict built by `compare_hosts`. -/
structure CompareHostsResult where
  missing : List String
  nosla : List String
  check_interval : List (String × String × Frac)
  max_check_attempts : List (String × String × Frac)
  retry_interval : List (String × String × Frac)
deriving DecidableEq, Repr

/-- The list of reported discrepancies of one attribute. -/
def CompareHostsResult.attrList : CompareHostsResult → HAttr → List (String × String × Frac)
  | r, .check_interval => r.check_interval
  | r, .max_check_attempts => r.max_check_attempts
  | r, .retry_interval => r.retry_interval

/-- The empty `result` accumulator. -/
def emptyCHR : CompareHostsResult := ⟨[], [], [], [], []⟩

/-- Record the outcome of one host at the front of the accumulated result
(the recursion processes the head host first). -/
def addPairDiff (h : String) (d : HostPairDiff) (r : CompareHostsResult) :
    CompareHostsResult where
  missing := r.missing
  nosla := if d.nosla then h :: r.nosla else r.nosla
  check_interval := ((d.ci.map fun p => (h, p)).toList) ++ r.check_interval
  max_check_attempts := ((d.mca.map fun p => (h, p)).toList) ++ r.max_check_attempts
  retry_interval := ((d.ri.map fun p => (h, p)).toList) ++ r.retry_interval

/-- Lexicographic comparison of character lists by code point, the order
Python `sorted` uses on strings. -/
def charListLe : List Char → List Char → Bool
  | [], _ => true
  | _ :: _, [] => false
  | a :: as, b :: bs =>
    if a.toNat < b.toNat then true
    else if b.toNat < a.toNat then false
    else charListLe as bs

/-- Python string order. -/
def strLe (a b : String) : Bool := charListLe a.toList b.toList

/-- Embedding of Python `sorted` on a list of strings (a stable sort by
code-point order). -/
def pySorted (l : List String) : List String :=
  l.insertionSort (fun a b => strLe a b = true)

/-- Sorting keeps exactly the members of the input list. -/
theorem mem_pySorted (l : List String) (a : String) : a ∈ pySorted l ↔ a ∈ l :=
  List.Perm.mem_iff (List.perm_insertionSort _ l)

/-- Sorting preserves freedom from duplicates. -/
theorem nodup_pySorted (l : List String) (h : l.Nodup) : (pySorted l).Nodup :=
  (List.Perm.nodup_iff (List.perm_insertionSort _ l)).mpr h

/-- The `compare_hosts` loop over the sorted Icinga1 hostnames: hosts
missing from Icinga2 are recorded, hosts present on both sides are
compared with `compareOneHost`. -/
def compare_hosts_go (hosts1 : List (String × Host1)) (hosts2 : List (String × Host2)) :
    List String → Except String CompareHostsResult
  | [] => .ok emptyCHR
  | h :: rest =>
    match hosts1.lookup h with
    | Option.none => .error "KeyError"
    | some h1 =>
      match hosts2.lookup h with
      | Option.none =>
        match compare_hosts_go hosts1 hosts2 rest with
        | .error e => .error e
        | .ok r => .ok { r with missing := h :: r.missing }
      | some h2 =>
        match compareOneHost h1 h2 with
        | .error e => .error e
        | .ok d =>
          match compare_hosts_go hosts1 hosts2 rest with
          | .error e => .error e
          | .ok r => .ok (addPairDiff h d r)

/-- Embedding of `compare.compare_hosts`: iterate over
`sorted(icinga1_hosts)` and compare each host present on both sides. -/
def compare_hosts (hosts1 : List (String × Host1)) (hosts2 : List (String × Host2)) :
    Except String CompareHostsResult :=
  compare_hosts_go hosts1 hosts2 (pySorted (hosts1.map Prod.fst))

end Icinga

namespace Icinga

/-- A successful association-list lookup means the key occurs among the
mapped keys. -/
theorem lookup_mem_keys {β : Type} (l : List (String × β)) (k : String) (v : β)
    (h : l.lookup k = some v) : k ∈ l.map Prod.fst := by
  induction l with
  | nil => cases h
  | cons p t ih =>
    rw [List.lookup] at h
    cases he : (k == p.1) <;> rw [he] at h <;> dsimp only at h
    · exact List.mem_cons_of_mem _ (ih h)
    · have : k = p.1 := eq_of_beq he
      simp [this]

/-- The unit-converted source value of one attribute. -/
def convValue (a : HAttr) (q : Frac) : Frac :=
  if a.isInterval then q.scale 60 else q

/-- Characterization of one attribute comparison, given parse success. -/
theorem compareAttr_ok (h1 : Host1) (h2 : Host2) (a : HAttr) (q : Frac)
    (o : Option (String × Frac))
    (hq : parseFloat (h1.attr a) = some q)
    (hok : compareAttr h1 h2 a = .ok o) :
    o = if (convValue a q).eqb (h2.attr a) then Option.none
        else some (h1.attr a, h2.attr a) := by
  rw [compareAttr, hq] at hok
  injection hok with hok
  exact hok.symm

/-- Characterization of the per-host comparison entries, given parse
success of the inspected attribute. -/
theorem compareOneHost_attrEntry (h1 : Host1) (h2 : Host2) (d : HostPairDiff)
    (a : HAttr) (q : Frac)
    (hq : parseFloat (h1.attr a) = some q)
    (hok : compareOneHost h1 h2 = .ok d) :
    d.attrEntry a = if (convValue a q).eqb (h2.attr a) then Option.none
        else some (h1.attr a, h2.attr a) := by
  rw [compareOneHost] at hok
  cases hn : noslaCheck h1 h2 <;> rw [hn] at hok
  case error => cases hok
  case ok nos =>
  cases hci : compareAttr h1 h2 .check_interval <;> rw [hci] at hok
  case error => cases hok
  case ok ci =>
  cases hmca : compareAttr h1 h2 .max_check_attempts <;> rw [hmca] at hok
  case error => cases hok
  case ok mca =>
  cases hri : compareAttr h1 h2 .retry_interval <;> rw [hri] at hok
  case error => cases hok
  case ok ri =>
  injection hok with hok
  subst hok
  cases a
  case check_interval =>
    simpa [HostPairDiff.attrEntry] using compareAttr_ok h1 h2 .check_interval q _ hq hci
  case max_check_attempts =>
    simpa [HostPairDiff.attrEntry] using compareAttr_ok h1 h2 .max_check_attempts q _ hq hmca
  case retry_interval =>
    simpa [HostPairDiff.attrEntry] using compareAttr_ok h1 h2 .retry_interval q _ hq hri

/-- Adding one host's outcome prepends its optional entry to the
per-attribute list. -/
theorem attrList_addPairDiff (h : String) (d : HostPairDiff) (r : CompareHostsResult)
    (a : HAttr) :
    (addPairDiff h d r).attrList a
      = ((d.attrEntry a).map fun p => (h, p.1, p.2)).toList ++ r.attrList a := by
  cases a <;> rfl

/-- The missing-host branch leaves the attribute lists unchanged. -/
theorem attrList_addMissing (h : String) (r : CompareHostsResult) (a : HAttr) :
    (CompareHostsResult.attrList { r with missing := h :: r.missing } a) = r.attrList a := by
  cases a <;> rfl

/-- No discrepancy entry carries a hostname that was not iterated over. -/
theorem compare_hosts_go_not_mem (hosts1 : List (String × Host1))
    (hosts2 : List (String × Host2)) (names : List String) (r : CompareHostsResult)
    (h : String)
    (hok : compare_hosts_go hosts1 hosts2 names = .ok r)
    (hn : h ∉ names) :
    ∀ (a : HAttr) (v1 : String) (v2 : Frac), (h, v1, v2) ∉ r.attrList a := by
  induction names generalizing r with
  | nil =>
    rw [compare_hosts_go] at hok
    injection hok with hok
    subst hok
    intro a v1 v2
    cases a <;> simp [emptyCHR, CompareHostsResult.attrList]
  | cons h' rest ih =>
    rw [compare_hosts_go] at hok
    have hne : h ≠ h' := fun e => hn (e ▸ List.mem_cons_self _ _)
    have hrest : h ∉ rest := fun m => hn (List.mem_cons_of_mem _ m)
    cases hl1 : hosts1.lookup h' <;> rw [hl1] at hok <;> dsimp only at hok
    case none => cases hok
    case some h1 =>
    cases hl2 : hosts2.lookup h' <;> rw [hl2] at hok <;> dsimp only at hok
    case none =>
      cases hr : compare_hosts_go hosts1 hosts2 rest <;> rw [hr] at hok
      case error => cases hok
      case ok r' =>
      injection hok with hok
      subst hok
      intro a v1 v2
      rw [attrList_addMissing]
      exact ih r' hr hrest a v1 v2
    case some h2 =>
      cases hd : compareOneHost h1 h2 <;> rw [hd] at hok
      case error => cases hok
      case ok d =>
      cases hr : compare_hosts_go hosts1 hosts2 rest <;> rw [hr] at hok
      case error => cases hok
      case ok r' =>
      injection hok with hok
      subst hok
      intro a v1 v2
      rw [attrList_addPairDiff]
      intro hmem
      rcases List.mem_append.mp hmem with hx | hx
      · cases he : d.attrEntry a <;> rw [he] at hx <;> simp at hx
        exact hne hx.1
      · exact ih r' hr hrest a v1 v2 hx

end Icinga

namespace Icinga

/-- For a hostname among the iterated names and present on both sides,
`compare_hosts_go` reports the attribute entry exactly when the converted
values differ, and every entry of that hostname carries the raw values. -/
theorem compare_hosts_go_spec (hosts1 : List (String × Host1))
    (hosts2 : List (String × Host2)) (h : String) (h1 : Host1) (h2 : Host2)
    (a : HAttr) (q : Frac)
    (hl1 : hosts1.lookup h = some h1) (hl2 : hosts2.lookup h = some h2)
    (hq : parseFloat (h1.attr a) = some q) :
    ∀ (names : List String) (r : CompareHostsResult), h ∈ names → names.Nodup →
      compare_hosts_go hosts1 hosts2 names = .ok r →
      (((h, h1.attr a, h2.attr a) ∈ r.attrList a) ↔
        (convValue a q).eqb (h2.attr a) = false)
      ∧ ∀ v1 v2, (h, v1, v2) ∈ r.attrList a → v1 = h1.attr a ∧ v2 = h2.attr a := by
  intro names
  induction names with
  | nil => intro r hmem; cases hmem
  | cons h' rest ih =>
    intro r hmem hnd hok
    rw [compare_hosts_go] at hok
    by_cases he : h = h'
    · subst he
      rw [hl1] at hok; dsimp only at hok
      rw [hl2] at hok; dsimp only at hok
      cases hd : compareOneHost h1 h2 <;> rw [hd] at hok <;> dsimp only at hok
      · cases hok
      rename_i d
      cases hr : compare_hosts_go hosts1 hosts2 rest <;> rw [hr] at hok <;> dsimp only at hok
      · cases hok
      rename_i r'
      injection hok with hok
      subst hok
      have hnot : h ∉ rest := (List.nodup_cons.mp hnd).1
      have hnm := compare_hosts_go_not_mem hosts1 hosts2 rest r' h hr hnot
      have hent := compareOneHost_attrEntry h1 h2 d a q hq hd
      rw [attrList_addPairDiff, hent]
      cases hb : (convValue a q).eqb (h2.attr a)
      · simp only [if_neg (by simp : ¬(false = true)), Option.map_some', Option.toList_some,
          List.cons_append, List.nil_append]
        constructor
        · simp [List.mem_cons]
        · intro v1 v2 hx
          rcases List.mem_cons.mp hx with hx | hx
          · exact ⟨congrArg (fun t => t.2.1) hx, congrArg (fun t => t.2.2) hx⟩
          · exact absurd hx (hnm a v1 v2)
      · simp only [if_pos rfl, Option.map_none, Option.toList_none, List.nil_append]
        constructor
        · constructor
          · intro hx; exact absurd hx (hnm a _ _)
          · intro hf; cases hf
        · intro v1 v2 hx; exact absurd hx (hnm a v1 v2)
    · have hmem' : h ∈ rest := (List.mem_cons.mp hmem).resolve_left he
      have hnd' : rest.Nodup := (List.nodup_cons.mp hnd).2
      cases hl1' : hosts1.lookup h' <;> rw [hl1'] at hok <;> dsimp only at hok
      · cases hok
      rename_i g1
      cases hl2' : hosts2.lookup h' <;> rw [hl2'] at hok <;> dsimp only at hok
      · cases hr : compare_hosts_go hosts1 hosts2 rest <;> rw [hr] at hok <;> dsimp only at hok
        · cases hok
        rename_i r'
        injection hok with hok
        subst hok
        rw [attrList_addMissing]
        exact ih r' hmem' hnd' hr
      rename_i g2
      cases hd : compareOneHost g1 g2 <;> rw [hd] at hok <;> dsimp only at hok
      · cases hok
      rename_i d
      cases hr : compare_hosts_go hosts1 hosts2 rest <;> rw [hr] at hok <;> dsimp only at hok
      · cases hok
      rename_i r'
      injection hok with hok
      subst hok
      have hih := ih r' hmem' hnd' hr
      rw [attrList_addPairDiff]
      cases hde : d.attrEntry a
      · simpa using hih
      rename_i p
      simp only [Option.map_some', Option.toList_some, List.cons_append, List.nil_append]
      constructor
      · rw [List.mem_cons]
        constructor
        · intro hx
          rcases hx with hx | hx
          · exact absurd (congrArg Prod.fst hx) he
          · exact hih.1.mp hx
        · intro hx
          exact Or.inr (hih.1.mpr hx)
      · intro v1 v2 hx
        rcases List.mem_cons.mp hx with hx | hx
        · exact absurd (congrArg Prod.fst hx) he
        · exact hih.2 v1 v2 hx

end Icinga

namespace Icinga

/-- The converted source value denotes the claimed rational: times 60 for
interval attributes. -/
theorem convValue_toRat (a : HAttr) (q : Frac) :
    (convValue a q).toRat = if a.isInterval then (60 : ℚ) * q.toRat else q.toRat := by
  cases a
  case check_interval =>
    simp only [convValue, HAttr.isInterval, Frac.scale, Frac.toRat, if_pos rfl]
    push_cast
    ring
  case max_check_attempts =>
    simp [convValue, HAttr.isInterval]
  case retry_interval =>
    simp only [convValue, HAttr.isInterval, Frac.scale, Frac.toRat, if_pos rfl]
    push_cast
    ring

/-- Scaling does not change the denominator. -/
theorem convValue_den (a : HAttr) (q : Frac) : (convValue a q).den = q.den := by
  cases a <;> rfl

/-- C1: for every hostname present in both the Source and Target host
sets, `compare_hosts` reports a discrepancy for an attribute among
check_interval, max_check_attempts and retry_interval exactly when the
Source value (converted to a float and multiplied by 60 for check and
retry intervals) differs from the Target value, and the reported entry
carries the hostname together with both raw, unconverted values. -/
theorem C1_compare_hosts_discrepancy_iff
    (hosts1 : List (String × Host1)) (hosts2 : List (String × Host2))
    (h : String) (h1 : Host1) (h2 : Host2) (r : CompareHostsResult)
    (a : HAttr) (q : Frac)
    (hnd : (hosts1.map Prod.fst).Nodup)
    (hl1 : hosts1.lookup h = some h1)
    (hl2 : hosts2.lookup h = some h2)
    (hok : compare_hosts hosts1 hosts2 = .ok r)
    (hq : parseFloat (h1.attr a) = some q)
    (hden : (h2.attr a).den ≠ 0) :
    (((h, h1.attr a, h2.attr a) ∈ r.attrList a) ↔
      (if a.isInterval then (60 : ℚ) * q.toRat else q.toRat) ≠ (h2.attr a).toRat)
    ∧ ∀ v1 v2, (h, v1, v2) ∈ r.attrList a → v1 = h1.attr a ∧ v2 = h2.attr a := by
  have hmem : h ∈ pySorted (hosts1.map Prod.fst) :=
    (mem_pySorted _ _).mpr (lookup_mem_keys _ _ _ hl1)
  have hnd' := nodup_pySorted _ hnd
  rw [compare_hosts] at hok
  have hsp := compare_hosts_go_spec hosts1 hosts2 h h1 h2 a q hl1 hl2 hq
    (pySorted (hosts1.map Prod.fst)) r hmem hnd' hok
  refine ⟨?_, hsp.2⟩
  rw [hsp.1]
  have hqden : q.den ≠ 0 := parseFloat_den_ne _ _ hq
  have hcden : (convValue a q).den ≠ 0 := by rw [convValue_den]; exact hqden
  have hiff := Frac.eqb_iff_toRat (convValue a q) (h2.attr a) hcden hden
  constructor
  · intro hfalse heq
    rw [← convValue_toRat] at heq
    have := hiff.mpr heq
    rw [this] at hfalse
    cases hfalse
  · intro hne
    cases hb : (convValue a q).eqb (h2.attr a)
    · rfl
    · exact absurd (convValue_toRat a q ▸ hiff.mp hb) hne

/-- Witness for C1: Source check_interval "1" (minute) against Target
check_interval 120 (seconds) is reported with the raw values, and the
reported values are exactly the raw ones. -/
theorem C1_compare_hosts_discrepancy_iff_witness :
    ((("web1", "1", (⟨120, 1⟩ : Frac)) ∈
        (CompareHostsResult.attrList ⟨[], [], [("web1", "1", ⟨120, 1⟩)], [], []⟩
          HAttr.check_interval)) ↔
      (if HAttr.check_interval.isInterval then (60 : ℚ) * (Frac.mk 1 1).toRat
        else (Frac.mk 1 1).toRat) ≠ (Frac.mk 120 1).toRat)
    ∧ ∀ v1 v2, ("web1", v1, v2) ∈
        (CompareHostsResult.attrList ⟨[], [], [("web1", "1", ⟨120, 1⟩)], [], []⟩
          HAttr.check_interval) →
        v1 = "1" ∧ v2 = ⟨120, 1⟩ :=
  C1_compare_hosts_discrepancy_iff
    [("web1", ⟨"1", "3", "1", "1", Option.none⟩)]
    [("web1", ⟨⟨120, 1⟩, ⟨3, 1⟩, ⟨60, 1⟩, .dict []⟩)]
    "web1" ⟨"1", "3", "1", "1", Option.none⟩ ⟨⟨120, 1⟩, ⟨3, 1⟩, ⟨60, 1⟩, .dict []⟩
    ⟨[], [], [("web1", "1", ⟨120, 1⟩)], [], []⟩ HAttr.check_interval ⟨1, 1⟩
    (by decide) rfl rfl rfl rfl (by decide)

end Icinga

namespace Icinga

/-- The two examples of the `ndict` docstring hold in the embedding: a
missing key and a chain through a None value both yield the empty falsy
nested dict instead of an error. -/
theorem ndictAccess_docstring_examples :
    ndictAccess [("a", .str "a"), ("b", .none)] ["c"] = .ok (.dict []) ∧
    ndictAccess [("a", .str "a"), ("b", .none)] ["b", "c"] = .ok (.dict []) :=
  ⟨rfl, rfl⟩

/-- C7: the claim states that `ndict(d)[k1]...[kn]` never raises a
KeyError or TypeError for every dictionary and every key chain, as the
docstring of `utils.ndict` promises. The code does not satisfy this:
chaining through a key whose stored value is a non-None scalar (here the
string value of key a) raises TypeError, because `nested_dict` leaves
scalar leaves unconverted and indexing a string with a string key raises.
This theorem evaluates the embedding at that failing input. -/
theorem C7_ndict_scalar_chain_raises :
    ndictAccess [("a", .str "x")] ["a", "b"] = .error "TypeError" := rfl

end Icinga

namespace Icinga

/-- One regex match of the Icinga1 cache tokenizer
(`OBJECT_CACHE_REGEX`): the four named groups object_type, keyonly, key
and value, each None when its alternative did not fire. The final
alternative (the closing brace line) yields a match with all groups
None. -/
structure CacheMatch where
  object_type : Option String
  keyonly : Option String
  key : Option String
  value : Option String
deriving DecidableEq, Repr

/-- Python truthiness of a regex group: None and the empty string are
falsy. -/
def groupTruthy : Option String → Bool
  | Option.none => false
  | some s => s ≠ ""

/-- `all(not x for x in match.groups())`: the end-of-object condition of
the `parse_icinga_cache` loop. -/
def CacheMatch.isEnd (m : CacheMatch) : Bool :=
  !groupTruthy m.object_type && !groupTruthy m.keyonly
    && !groupTruthy m.key && !groupTruthy m.value

/-- A parsed cache record: a Python dict from keys to string-or-None
values, in insertion order. -/
abbrev CacheRecord := List (String × Option String)

/-- Python dict assignment `obj[k] = v`: replace in place when the key
exists, append otherwise. -/
def dictSet : CacheRecord → String → Option String → CacheRecord
  | [], k, v => [(k, v)]
  | (k', v') :: rest, k, v =>
    if k' == k then (k', v) :: rest else (k', v') :: dictSet rest k v

/-- The non-end part of the `parse_icinga_cache` loop body: an
object-start match stores the object type and the provenance source, a
key-only match (tab-indented key with no value) stores None under the
key, and a key-value match with truthy value stores the value; any other
match leaves the object unchanged. -/
def objStep (source : String) (obj : CacheRecord) (m : CacheMatch) : CacheRecord :=
  if groupTruthy m.object_type then
    dictSet (dictSet obj "object_type" m.object_type) "monitoring_source" (some source)
  else if groupTruthy m.keyonly then
    dictSet obj (m.keyonly.getD "") Option.none
  else if groupTruthy m.key && groupTruthy m.value then
    dictSet obj (m.key.getD "") m.value
  else obj

/-- The full loop body of `parse_icinga_cache`: on an all-falsy match the
accumulated object is appended to the result and reset. -/
def cacheStep (source : String) (st : List CacheRecord × CacheRecord) (m : CacheMatch) :
    List CacheRecord × CacheRecord :=
  if m.isEnd then (st.1 ++ [st.2], [])
  else (st.1, objStep source st.2 m)

/-- Embedding of `icinga1.parse_icinga_cache` over the match sequence of
the regex scan: fold the loop body and return the finished records (an
object still in progress at end of input is discarded, as in the
source). -/
def parse_icinga_cache (source : String) (ms : List CacheMatch) : List CacheRecord :=
  (ms.foldl (cacheStep source) ([], [])).1

/-- The object built by one block of non-end matches. -/
def buildObj (source : String) (ms : List CacheMatch) : CacheRecord :=
  ms.foldl (objStep source) []

/-- Does this match store a value under key `k`? -/
def setsKey (k : String) (m : CacheMatch) : Bool :=
  if groupTruthy m.object_type then false
  else if groupTruthy m.keyonly then m.keyonly == some k
  else if groupTruthy m.key && groupTruthy m.value then m.key == some k
  else false

/-- Setting a key makes it look up to the new value. -/
theorem lookup_dictSet_self (d : CacheRecord) (k : String) (v : Option String) :
    (dictSet d k v).lookup k = some v := by
  induction d with
  | nil => simp [dictSet]
  | cons p rest ih =>
    rcases p with ⟨k', v'⟩
    rw [dictSet]
    by_cases he : k' = k
    · subst he
      rw [if_pos (by simp), List.lookup_cons]
      simp
    · rw [if_neg (by simpa using he), List.lookup_cons,
        show (k == k') = false from beq_false_of_ne (Ne.symm he)]
      exact ih

/-- Setting a different key leaves a lookup unchanged. -/
theorem lookup_dictSet_ne (d : CacheRecord) (k' k : String) (v : Option String)
    (hne : k' ≠ k) : (dictSet d k' v).lookup k = d.lookup k := by
  induction d with
  | nil =>
    rw [dictSet, List.lookup_cons,
      show (k == k') = false from beq_false_of_ne (Ne.symm hne)]
  | cons p rest ih =>
    rcases p with ⟨k1, v1⟩
    rw [dictSet]
    by_cases he : k1 = k'
    · rw [if_pos (by simpa using he), List.lookup_cons, List.lookup_cons]
      have hkk : (k == k1) = false := by
        apply beq_false_of_ne
        intro h
        exact hne (by rw [← he, ← h])
      rw [hkk]
    · rw [if_neg (by simpa using he), List.lookup_cons, List.lookup_cons]
      cases hkk : k == k1
      · exact ih
      · rfl

end Icinga

namespace Icinga

/-- A match that does not set key `k` (with `k` none of the two
bookkeeping keys) leaves the lookup of `k` unchanged. -/
theorem lookup_objStep_of_not_sets (source : String) (obj : CacheRecord) (m : CacheMatch)
    (k : String) (hs : setsKey k m = false)
    (hk1 : k ≠ "object_type") (hk2 : k ≠ "monitoring_source") :
    (objStep source obj m).lookup k = obj.lookup k := by
  rw [objStep]
  rw [setsKey] at hs
  by_cases h1 : groupTruthy m.object_type
  · rw [if_pos h1,
      lookup_dictSet_ne _ _ _ _ (Ne.symm hk2),
      lookup_dictSet_ne _ _ _ _ (Ne.symm hk1)]
  · rw [if_neg h1]
    rw [if_neg h1] at hs
    by_cases h2 : groupTruthy m.keyonly
    · rw [if_pos h2]
      rw [if_pos h2] at hs
      cases hko : m.keyonly with
      | none => rw [hko] at h2; cases h2
      | some k' =>
        rw [hko] at hs
        have : k' ≠ k := by
          intro he
          rw [he] at hs
          simp at hs
        exact lookup_dictSet_ne _ _ _ _ this
    · rw [if_neg h2]
      rw [if_neg h2] at hs
      by_cases h3 : groupTruthy m.key && groupTruthy m.value
      · rw [if_pos h3]
        rw [if_pos h3] at hs
        cases hke : m.key with
        | none => rw [hke] at h3; simp [groupTruthy] at h3
        | some k' =>
          rw [hke] at hs
          have : k' ≠ k := by
            intro he
            rw [he] at hs
            simp at hs
          exact lookup_dictSet_ne _ _ _ _ this
      · rw [if_neg h3]

/-- Folding matches that never set key `k` preserves its lookup. -/
theorem lookup_foldl_objStep (source : String) (k : String)
    (hk1 : k ≠ "object_type") (hk2 : k ≠ "monitoring_source") :
    ∀ (ms : List CacheMatch) (obj : CacheRecord),
      (∀ m ∈ ms, setsKey k m = false) →
      (ms.foldl (objStep source) obj).lookup k = obj.lookup k := by
  intro ms
  induction ms with
  | nil => intro obj _; rfl
  | cons m rest ih =>
    intro obj hall
    rw [List.foldl_cons, ih _ (fun m' hm' => hall m' (List.mem_cons_of_mem _ hm')),
      lookup_objStep_of_not_sets source obj m k (hall m (List.mem_cons_self _ _)) hk1 hk2]

/-- A key-only match (tab-indented key with no value) stores None under
the key. -/
theorem lookup_objStep_keyonly (source : String) (obj : CacheRecord) (m : CacheMatch)
    (k : String) (h1 : groupTruthy m.object_type = false) (h2 : m.keyonly = some k)
    (h3 : k ≠ "") :
    (objStep source obj m).lookup k = some Option.none := by
  rw [objStep, if_neg (by simp [h1]), if_pos (by simp [h2, groupTruthy, h3]), h2]
  exact lookup_dictSet_self _ _ _

/-- A block of non-end matches followed by one end match yields exactly
the object built from the block. -/
theorem foldl_cacheStep_no_end (source : String) :
    ∀ (ms : List CacheMatch) (acc : List CacheRecord) (obj : CacheRecord),
      (∀ m ∈ ms, m.isEnd = false) →
      ms.foldl (cacheStep source) (acc, obj) = (acc, ms.foldl (objStep source) obj) := by
  intro ms
  induction ms with
  | nil => intro acc obj _; rfl
  | cons m rest ih =>
    intro acc obj hall
    rw [List.foldl_cons, List.foldl_cons, cacheStep,
      if_neg (by simp [hall m (List.mem_cons_self _ _)])]
    exact ih acc _ (fun m' hm' => hall m' (List.mem_cons_of_mem _ hm'))

/-- C9: `parse_icinga_cache` distinguishes a key present with an empty
value from an absent key. For a block of matches closed by an end match,
the parsed record of the block is `buildObj`; a tab-indented key-only
line (a match whose keyonly group is the key) makes the record map that
key to None, while a key never touched inside the block is absent from
the record entirely. -/
theorem C9_parse_cache_keyonly_none_vs_absent
    (source : String) (ms : List CacheMatch) (e : CacheMatch) (k : String)
    (hend : e.isEnd = true) (hnoend : ∀ m ∈ ms, m.isEnd = false)
    (hk1 : k ≠ "object_type") (hk2 : k ≠ "monitoring_source") :
    parse_icinga_cache source (ms ++ [e]) = [buildObj source ms]
    ∧ (∀ ms1 m ms2, ms = ms1 ++ m :: ms2 →
        groupTruthy m.object_type = false → m.keyonly = some k → k ≠ "" →
        (∀ m' ∈ ms2, setsKey k m' = false) →
        (buildObj source ms).lookup k = some Option.none)
    ∧ ((∀ m ∈ ms, setsKey k m = false) →
        (buildObj source ms).lookup k = Option.none) := by
  refine ⟨?_, ?_, ?_⟩
  · rw [parse_icinga_cache, List.foldl_append, foldl_cacheStep_no_end source ms [] [] hnoend,
      List.foldl_cons, List.foldl_nil, cacheStep, if_pos hend]
    rfl
  · intro ms1 m ms2 hsplit h1 h2 h3 hall
    rw [buildObj, hsplit, List.foldl_append, List.foldl_cons,
      lookup_foldl_objStep source k hk1 hk2 ms2 _ hall,
      lookup_objStep_keyonly source _ m k h1 h2 h3]
  · intro hall
    rw [buildObj, lookup_foldl_objStep source k hk1 hk2 ms [] hall]
    rfl

/-- Witness for C9 on the broken-contact fixture shape: a contact block
whose contacts line is key-only parses with contacts mapped to None,
while a key that never appears (address) is absent. -/
theorem C9_parse_cache_keyonly_none_vs_absent_witness :
    (buildObj "monitoring01"
      [⟨some "contact", Option.none, Option.none, Option.none⟩,
       ⟨Option.none, some "contacts", Option.none, Option.none⟩,
       ⟨Option.none, Option.none, some "contact_name", some "bob"⟩]).lookup "contacts"
      = some Option.none
    ∧ (buildObj "monitoring01"
      [⟨some "contact", Option.none, Option.none, Option.none⟩,
       ⟨Option.none, some "contacts", Option.none, Option.none⟩,
       ⟨Option.none, Option.none, some "contact_name", some "bob"⟩]).lookup "address"
      = Option.none :=
  ⟨(C9_parse_cache_keyonly_none_vs_absent "monitoring01"
      [⟨some "contact", Option.none, Option.none, Option.none⟩,
       ⟨Option.none, some "contacts", Option.none, Option.none⟩,
       ⟨Option.none, Option.none, some "contact_name", some "bob"⟩]
      ⟨Option.none, Option.none, Option.none, Option.none⟩ "contacts"
      (by decide) (by decide) (by decide) (by decide)).2.1
      [⟨some "contact", Option.none, Option.none, Option.none⟩]
      ⟨Option.none, some "contacts", Option.none, Option.none⟩
      [⟨Option.none, Option.none, some "contact_name", some "bob"⟩]
      rfl (by decide) rfl (by decide) (by decide),
   (C9_parse_cache_keyonly_none_vs_absent "monitoring01"
      [⟨some "contact", Option.none, Option.none, Option.none⟩,
       ⟨Option.none, some "contacts", Option.none, Option.none⟩,
       ⟨Option.none, Option.none, some "contact_name", some "bob"⟩]
      ⟨Option.none, Option.none, Option.none, Option.none⟩ "address"
      (by decide) (by decide) (by decide) (by decide)).2.2 (by decide)⟩

end Icinga

namespace Icinga

/-- Icinga1 host downtime status record (all fields are strings in the
status file). -/
structure HostDowntime1 where
  host_name : String
  author : String
  comment : String
  start_time : String
  end_time : String
  duration : String
  fixed : String
deriving DecidableEq, Repr

/-- Icinga1 service downtime status record. -/
structure ServiceDowntime1 where
  host_name : String
  service_description : String
  author : String
  comment : String
  start_time : String
  end_time : String
  duration : String
  fixed : String
deriving DecidableEq, Repr

/-- Icinga1 service record (cache) with the fields read by the
comparison and migration code. -/
structure Service1 where
  host_name : String
  service_description : String
  check_command : String
  check_command_extracted : String
  notifications_enabled : String
  contacts : Option String
  notes : Option String
  notes_url : Option String
deriving DecidableEq, Repr

/-- Icinga2 service record: `attrs.name`, the extracted check command,
notification flags (with the optional `original_attributes` snapshot),
the notes url and the custom-variable bag `attrs.vars`. -/
structure Service2 where
  name : String
  display_name : String
  check_command_extracted : String
  enable_notifications : Bool
  original_enable_notifications : Option Bool
  notes_url : String
  vars : PyVal
deriving Repr

/-- Icinga1 service status record. -/
structure SvcStatus1 where
  check_command : String
  service_description : String
  notifications_enabled : String
deriving DecidableEq, Repr

/-- Icinga1 host status record. -/
structure HostStatus1 where
  notifications_enabled : String
deriving DecidableEq, Repr

/-- Icinga1 service acknowledgement (a service comment with entry type
4). -/
structure ServiceAck1 where
  host_name : String
  service_description : String
  author : String
  comment_data : String
deriving DecidableEq, Repr

/-- Icinga1 host acknowledgement (a host comment with entry type 4). -/
structure HostAck1 where
  host_name : String
  author : String
  comment_data : String
deriving DecidableEq, Repr

/-- The composite existence key of a migrated host downtime: the filter
`migrate_host_downtimes` passes to `get_downtimes` and the exact
arguments of `schedule_host_downtime`. -/
structure HostDowntimeKey where
  host_name : String
  author : String
  comment : String
  start_time : Int
  end_time : Int
  duration : Int
  fixed : Bool
deriving DecidableEq, Repr

/-- The composite existence key of a migrated service downtime. -/
structure ServiceDowntimeKey where
  host_name : String
  service_name : String
  downtime_author : String
  downtime_comment : String
  downtime_start_time : Int
  downtime_end_time : Int
  downtime_duration : Int
  downtime_fixed : Bool
deriving DecidableEq, Repr

/-- The existence key of a migrated service acknowledgement. -/
structure ServiceAckKey where
  host_name : String
  author : String
  service_name : String
  comment : String
deriving DecidableEq, Repr

/-- The existence key of a migrated host acknowledgement. -/
structure HostAckKey where
  host_name : String
  author : String
  comment : String
deriving DecidableEq, Repr

/-- An Icinga2 API call issued by the migration code. Query calls are
read-only; schedule, acknowledge and update calls mutate the Target. -/
inductive Call where
  | getDowntimes : HostDowntimeKey → Call
  | getServiceDowntimes : ServiceDowntimeKey → Call
  | getServiceAcks : ServiceAckKey → Call
  | getHostAcks : HostAckKey → Call
  | scheduleHostDowntime : HostDowntimeKey → Call
  | scheduleServiceDowntime : ServiceDowntimeKey → Call
  | acknowledgeService : ServiceAckKey → Call
  | acknowledgeHost : HostAckKey → Call
  | setHostNotifications : String → Bool → String → Call
  | setServiceNotifications : String → String → Bool → String → Call
deriving DecidableEq, Repr

/-- Does the call mutate Target state (schedule_downtime, acknowledge,
update)? -/
def Call.isMutating : Call → Bool
  | .getDowntimes _ => false
  | .getServiceDowntimes _ => false
  | .getServiceAcks _ => false
  | .getHostAcks _ => false
  | _ => true

/-- Fold a per-entity step over a batch: a step returns the new state and
the calls it issued, or an error when the Python code would raise an
uncaught exception; an error aborts the batch (the exception propagates),
keeping the state reached and dropping the remaining entities. -/
def runSteps {σ ε : Type} (step : σ → ε → Except String (σ × List Call)) :
    σ → List ε → σ × List Call × Option String
  | st, [] => (st, [], Option.none)
  | st, e :: es =>
    match step st e with
    | .error msg => (st, [], some msg)
    | .ok p =>
      let r := runSteps step p.1 es
      (r.1, p.2 ++ r.2.1, r.2.2)

/-- The downtime exclusion of both downtime migrations: keep only
downtimes whose comment contains neither daily nor weekly,
case-insensitively. -/
def keepDowntime (comment : String) : Bool :=
  !strContainsCI comment "daily" && !strContainsCI comment "weekly"

/-- The int() conversions of the three numeric downtime fields; a bad
field raises ValueError. -/
def downtimeParse (start_time end_time duration : String) :
    Except String (Int × Int × Int) :=
  match parseInt start_time, parseInt end_time, parseInt duration with
  | some a, some b, some c => .ok (a, b, c)
  | _, _, _ => .error "ValueError"

/-- The composite key a host downtime is filtered and scheduled with. -/
def hostDowntimeKeyOf (suffix : String) (dt : HostDowntime1) (a b c : Int) :
    HostDowntimeKey :=
  ⟨dt.host_name, dt.author, dt.comment ++ suffix, a, b, c, dt.fixed == "1"⟩

/-- The non-raising tail of the `migrate_host_downtimes` loop body: skip
hosts absent from Icinga2, existence-check the composite key against the
Target downtimes and schedule the downtime when absent and not
simulating. -/
def hostDowntimeCore (hosts2 : List String) (suffix : String) (simulate : Bool)
    (st : List HostDowntimeKey) (dt : HostDowntime1) (a b c : Int) :
    List HostDowntimeKey × List Call :=
  if hosts2.contains dt.host_name then
    let key := hostDowntimeKeyOf suffix dt a b c
    if st.contains key then (st, [.getDowntimes key])
    else if !simulate then (key :: st, [.getDowntimes key, .scheduleHostDowntime key])
    else (st, [.getDowntimes key])
  else (st, [])

/-- The body of the `migrate_host_downtimes` loop for one downtime. -/
def hostDowntimeStep (hosts2 : List String) (suffix : String) (simulate : Bool)
    (st : List HostDowntimeKey) (dt : HostDowntime1) :
    Except String (List HostDowntimeKey × List Call) :=
  match downtimeParse dt.start_time dt.end_time dt.duration with
  | .error e => .error e
  | .ok (a, b, c) => .ok (hostDowntimeCore hosts2 suffix simulate st dt a b c)

/-- Embedding of `downtimes.migrate_host_downtimes`: the daily/weekly
comment filter, the optional hostname filter, then the per-downtime loop
threaded through the Target downtime store. -/
def migrate_host_downtimes (simulate : Bool) (suffix : String) (hostname : Option String)
    (hosts2 : List String) (hostdowntimes : List HostDowntime1)
    (st : List HostDowntimeKey) :
    List HostDowntimeKey × List Call × Option String :=
  let dts := hostdowntimes.filter (fun dt => keepDowntime dt.comment)
  let dts := match hostname with
    | Option.none => dts
    | some hn => dts.filter (fun dt => dt.host_name == hn)
  runSteps (hostDowntimeStep hosts2 suffix simulate) st dts

/-- Filter with a fallible predicate (a Python list comprehension whose
condition may raise). -/
def filterE {α : Type} (p : α → Except String Bool) : List α → Except String (List α)
  | [] => .ok []
  | x :: xs =>
    match p x with
    | .error e => .error e
    | .ok b =>
      match filterE p xs with
      | .error e => .error e
      | .ok rest => .ok (if b then x :: rest else rest)

/-- The chain `ndict(service)[attrs][vars][comment]` on an Icinga2
service record. -/
def service2CommentVal (s2 : Service2) : Except String PyVal :=
  ndictAccess [("attrs", .dict [("vars", s2.vars)])] ["attrs", "vars", "comment"]

/-- The candidate condition of the service-downtime migration: equal
extracted check command, or (only evaluated otherwise, as the Python `or`
short-circuits) the vars.comment alias equal to the Icinga1 raw check
command. -/
def serviceDowntimeMatches (s1 : Service1) (s2 : Service2) : Except String Bool :=
  if s2.check_command_extracted == s1.check_command_extracted then .ok true
  else
    match service2CommentVal s2 with
    | .error e => .error e
    | .ok v => .ok (v.eqStr s1.check_command)

/-- The body of the `migrate_service_downtimes` loop for one downtime:
the numeric conversions, the host check, the Icinga1 service resolution
by service_description (`[0]` raises IndexError when nothing matches),
the Icinga2 candidate filter, then — even when several candidates were
reported AMBIGUOUS — the first candidate is selected and the downtime is
existence-checked and possibly scheduled against it. -/
def serviceDowntimeStep (src : String → List Service1) (tgt : String → List Service2)
    (hosts2 : List String) (suffix : String) (simulate : Bool)
    (st : List ServiceDowntimeKey) (dt : ServiceDowntime1) :
    Except String (List ServiceDowntimeKey × List Call) :=
  match downtimeParse dt.start_time dt.end_time dt.duration with
  | .error e => .error e
  | .ok (start_time, end_time, duration) =>
    let fixed := dt.fixed == "1"
    if hosts2.contains dt.host_name then
      match (src dt.host_name).filter
          (fun s => s.service_description == dt.service_description) with
      | [] => .error "IndexError"
      | s1 :: _ =>
        match filterE (serviceDowntimeMatches s1) (tgt dt.host_name) with
        | .error e => .error e
        | .ok [] => .ok (st, [])
        | .ok (s2 :: _) =>
          let key : ServiceDowntimeKey :=
            ⟨dt.host_name, s2.name, dt.author, dt.comment ++ suffix,
              start_time, end_time, duration, fixed⟩
          if st.contains key then .ok (st, [.getServiceDowntimes key])
          else if !simulate then
            .ok (key :: st, [.getServiceDowntimes key, .scheduleServiceDowntime key])
          else .ok (st, [.getServiceDowntimes key])
    else .ok (st, [])

/-- Embedding of `downtimes.migrate_service_downtimes`. -/
def migrate_service_downtimes (simulate : Bool) (suffix : String) (hostname : Option String)
    (hosts2 : List String) (src : String → List Service1) (tgt : String → List Service2)
    (servicedowntimes : List ServiceDowntime1) (st : List ServiceDowntimeKey) :
    List ServiceDowntimeKey × List Call × Option String :=
  let dts := servicedowntimes.filter (fun dt => keepDowntime dt.comment)
  let dts := match hostname with
    | Option.none => dts
    | some hn => dts.filter (fun dt => dt.host_name == hn)
  runSteps (serviceDowntimeStep src tgt hosts2 suffix simulate) st dts

end Icinga

namespace Icinga

/-- The candidate condition of the service-acknowledgement migration:
equal extracted check command, or the vars.comment alias equal to the
Icinga1 extracted check command. -/
def serviceAckMatches (s1 : Service1) (s2 : Service2) : Except String Bool :=
  if s2.check_command_extracted == s1.check_command_extracted then .ok true
  else
    match service2CommentVal s2 with
    | .error e => .error e
    | .ok v => .ok (v.eqStr s1.check_command_extracted)

/-- The body of the `migrate_service_acknowledgements` loop for one
acknowledgement: skip hosts absent from Icinga2, resolve the Icinga1
service by service_description under `assert len(...) == 1` (an
AssertionError aborts), filter Icinga2 candidates, and in apply mode
existence-check and acknowledge against the first candidate. -/
def serviceAckStep (src : String → List Service1) (tgt : String → List Service2)
    (hosts2 : List String) (suffix : String) (simulate : Bool)
    (st : List ServiceAckKey) (ack : ServiceAck1) :
    Except String (List ServiceAckKey × List Call) :=
  if hosts2.contains ack.host_name then
    match (src ack.host_name).filter
        (fun s => s.service_description == ack.service_description) with
    | [s1] =>
      match filterE (serviceAckMatches s1) (tgt ack.host_name) with
      | .error e => .error e
      | .ok [] => .ok (st, [])
      | .ok (s2 :: _) =>
        if simulate then .ok (st, [])
        else
          let key : ServiceAckKey :=
            ⟨ack.host_name, ack.author, s2.name, ack.comment_data ++ suffix⟩
          if st.contains key then .ok (st, [.getServiceAcks key])
          else .ok (key :: st, [.getServiceAcks key, .acknowledgeService key])
    | _ => .error "AssertionError"
  else .ok (st, [])

/-- Embedding of `acknowledgements.migrate_service_acknowledgements`. -/
def migrate_service_acknowledgements (simulate : Bool) (suffix : String)
    (hostname : Option String) (hosts2 : List String)
    (src : String → List Service1) (tgt : String → List Service2)
    (acks : List ServiceAck1) (st : List ServiceAckKey) :
    List ServiceAckKey × List Call × Option String :=
  let acks := match hostname with
    | Option.none => acks
    | some hn => acks.filter (fun a => a.host_name == hn)
  runSteps (serviceAckStep src tgt hosts2 suffix simulate) st acks

/-- The body of the `migrate_host_acknowledgements` loop: in apply mode,
existence-check the acknowledgement key and acknowledge the host when
absent. -/
def hostAckStep (suffix : String) (simulate : Bool)
    (st : List HostAckKey) (ack : HostAck1) :
    Except String (List HostAckKey × List Call) :=
  if simulate then .ok (st, [])
  else
    let key : HostAckKey := ⟨ack.host_name, ack.author, ack.comment_data ++ suffix⟩
    if st.contains key then .ok (st, [.getHostAcks key])
    else .ok (key :: st, [.getHostAcks key, .acknowledgeHost key])

/-- Embedding of `acknowledgements.migrate_host_acknowledgements`. -/
def migrate_host_acknowledgements (simulate : Bool) (suffix : String)
    (hostname : Option String) (acks : List HostAck1) (st : List HostAckKey) :
    List HostAckKey × List Call × Option String :=
  let acks := match hostname with
    | Option.none => acks
    | some hn => acks.filter (fun a => a.host_name == hn)
  runSteps (hostAckStep suffix simulate) st acks

/-- The body of the `migrate_host_notification_states` loop for one
hostname: hosts unknown to either side are skipped with a log line, the
host status lookup on a plain dict raises KeyError when absent, and the
notification state is replayed only when the configured flag is enabled
while the status flag is not; the update call is wrapped in a
try/except, so it never aborts. -/
def hostNotifStep (host1 : List (String × Host1)) (status1 : String → Option HostStatus1)
    (hosts2 : List String) (suffix : String) (simulate : Bool)
    (_st : Unit) (hostname : String) : Except String (Unit × List Call) :=
  match host1.lookup hostname with
  | Option.none => .ok ((), [])
  | some h1 =>
    if hosts2.contains hostname then
      match status1 hostname with
      | Option.none => .error "KeyError"
      | some hs =>
        if h1.notifications_enabled == "1" && !(hs.notifications_enabled == "1") then
          if !simulate then
            .ok ((), [.setHostNotifications hostname false
              ("Migrated notification state from Icinga1" ++ suffix)])
          else .ok ((), [])
        else .ok ((), [])
    else .ok ((), [])

/-- Embedding of `notification_states.migrate_host_notification_states`:
iterate over the Icinga1 host names (or the one given hostname). -/
def migrate_host_notification_states (simulate : Bool) (suffix : String)
    (hostname : Option String) (host1 : List (String × Host1))
    (status1 : String → Option HostStatus1) (hosts2 : List String) :
    Unit × List Call × Option String :=
  let hostnames := match hostname with
    | Option.none => host1.map Prod.fst
    | some hn => [hn]
  runSteps (hostNotifStep host1 status1 hosts2 suffix simulate) () hostnames

/-- The body of the `migrate_service_notification_states` loop for one
hostname: hosts absent from Icinga2 are skipped, and for each Icinga1
service of the host with a matching status record whose configured flag
is enabled but whose status flag is disabled, the unique Icinga2 service
with the same extracted check command (when notifications are enabled on
it) receives the update; the update call is wrapped in a try/except. -/
def serviceNotifStep (src : String → List Service1) (states : String → List SvcStatus1)
    (tgt : String → List Service2) (hosts2 : List String) (suffix : String)
    (simulate : Bool) (_st : Unit) (hostname : String) :
    Except String (Unit × List Call) :=
  if hosts2.contains hostname then
    .ok ((), (src hostname).foldl (fun acc service =>
      match (states hostname).filter
          (fun t => t.check_command == service.check_command) with
      | [] => acc
      | sstate :: _ =>
        if service.notifications_enabled == "1" && sstate.notifications_enabled == "0" then
          match (tgt hostname).filter
              (fun x => x.check_command_extracted == service.check_command_extracted) with
          | [s2] =>
            if s2.enable_notifications then
              if !simulate then
                acc ++ [.setServiceNotifications hostname s2.name false
                  ("Migrated notification state from Icinga1" ++ suffix)]
              else acc
            else acc
          | _ => acc
        else acc) [])
  else .ok ((), [])

/-- Embedding of `notification_states.migrate_service_notification_states`:
iterate over the Icinga1 host_name fields (or the one given hostname). -/
def migrate_service_notification_states (simulate : Bool) (suffix : String)
    (hostname : Option String) (icinga1_hostnames : List String)
    (src : String → List Service1) (states : String → List SvcStatus1)
    (tgt : String → List Service2) (hosts2 : List String) :
    Unit × List Call × Option String :=
  let hostnames := match hostname with
    | Option.none => icinga1_hostnames
    | some hn => [hn]
  runSteps (serviceNotifStep src states tgt hosts2 suffix simulate) () hostnames

end Icinga


namespace Icinga

/-- C10: both migrate_host_downtimes and migrate_service_downtimes drop
every Source downtime whose comment contains daily or weekly
(case-insensitively) before any processing: a run on the pre-filtered
batch is indistinguishable from a run on the full batch — same final
Target state, same calls (so no existence check and no creation for the
excluded downtimes), same outcome — in simulate and in apply mode alike;
and a batch consisting of one excluded downtime issues no call at all. -/
theorem C10_daily_weekly_filtered
    (simulate : Bool) (suffix : String) (hostname : Option String)
    (hosts2 : List String) (src : String → List Service1) (tgt : String → List Service2)
    (hostdowntimes : List HostDowntime1) (servicedowntimes : List ServiceDowntime1)
    (sth : List HostDowntimeKey) (sts : List ServiceDowntimeKey)
    (dth : HostDowntime1) (dtv : ServiceDowntime1) :
    migrate_host_downtimes simulate suffix hostname hosts2
        (hostdowntimes.filter (fun dt => keepDowntime dt.comment)) sth
      = migrate_host_downtimes simulate suffix hostname hosts2 hostdowntimes sth
    ∧ migrate_service_downtimes simulate suffix hostname hosts2 src tgt
        (servicedowntimes.filter (fun dt => keepDowntime dt.comment)) sts
      = migrate_service_downtimes simulate suffix hostname hosts2 src tgt servicedowntimes sts
    ∧ (keepDowntime dth.comment = false →
        migrate_host_downtimes simulate suffix Option.none hosts2 [dth] sth
          = (sth, [], Option.none))
    ∧ (keepDowntime dtv.comment = false →
        migrate_service_downtimes simulate suffix Option.none hosts2 src tgt [dtv] sts
          = (sts, [], Option.none)) := by
  refine ⟨?_, ?_, ?_, ?_⟩
  · simp only [migrate_host_downtimes, List.filter_filter, Bool.and_self]
  · simp only [migrate_service_downtimes, List.filter_filter, Bool.and_self]
  · intro hk
    simp [migrate_host_downtimes, List.filter_cons, hk, runSteps]
  · intro hk
    simp [migrate_service_downtimes, List.filter_cons, hk, runSteps]

/-- Witness for C10 at concrete excluded downtimes (comments containing
Weekly and daily). -/
theorem C10_daily_weekly_filtered_witness :
    migrate_host_downtimes false ".migrated" Option.none ["h1"]
        (List.filter (fun dt => keepDowntime dt.comment)
          [⟨"h1", "alice", "Weekly reboot", "1", "2", "3", "1"⟩]) []
      = migrate_host_downtimes false ".migrated" Option.none ["h1"]
          [⟨"h1", "alice", "Weekly reboot", "1", "2", "3", "1"⟩] []
    ∧ migrate_service_downtimes false ".migrated" Option.none ["h1"]
        (fun _ => []) (fun _ => [])
        (List.filter (fun dt => keepDowntime dt.comment)
          [⟨"h1", "s", "alice", "daily job", "1", "2", "3", "1"⟩]) []
      = migrate_service_downtimes false ".migrated" Option.none ["h1"]
          (fun _ => []) (fun _ => [])
          [⟨"h1", "s", "alice", "daily job", "1", "2", "3", "1"⟩] []
    ∧ (migrate_host_downtimes false ".migrated" Option.none ["h1"]
        [⟨"h1", "alice", "Weekly reboot", "1", "2", "3", "1"⟩] []
          = ([], [], Option.none))
    ∧ (migrate_service_downtimes false ".migrated" Option.none ["h1"]
        (fun _ => []) (fun _ => [])
        [⟨"h1", "s", "alice", "daily job", "1", "2", "3", "1"⟩] []
          = ([], [], Option.none)) := by
  have h := C10_daily_weekly_filtered false ".migrated" Option.none ["h1"]
      (fun _ => []) (fun _ => [])
      [⟨"h1", "alice", "Weekly reboot", "1", "2", "3", "1"⟩]
      [⟨"h1", "s", "alice", "daily job", "1", "2", "3", "1"⟩] [] []
      ⟨"h1", "alice", "Weekly reboot", "1", "2", "3", "1"⟩
      ⟨"h1", "s", "alice", "daily job", "1", "2", "3", "1"⟩
  exact ⟨h.1, h.2.1, h.2.2.1 (by decide), h.2.2.2 (by decide)⟩

end Icinga

namespace Icinga

/-- Boolean containment agrees with membership. -/
theorem contains_iff_mem {α : Type} [BEq α] [LawfulBEq α] (l : List α) (a : α) :
    l.contains a = true ↔ a ∈ l := by
  simp [List.contains]

/-- The per-downtime body only ever extends the Target downtime store. -/
theorem hostDowntimeCore_subset (hosts2 : List String) (suffix : String) (simulate : Bool)
    (st : List HostDowntimeKey) (dt : HostDowntime1) (a b c : Int) :
    ∀ k ∈ st, k ∈ (hostDowntimeCore hosts2 suffix simulate st dt a b c).1 := by
  intro k hk
  rw [hostDowntimeCore]
  dsimp only
  by_cases hh : hosts2.contains dt.host_name = true
  · rw [if_pos hh]
    by_cases hc : st.contains (hostDowntimeKeyOf suffix dt a b c) = true
    · rw [if_pos hc]; exact hk
    · rw [if_neg hc]
      by_cases hs : (!simulate) = true
      · rw [if_pos hs]; exact List.mem_cons_of_mem _ hk
      · rw [if_neg hs]; exact hk
  · rw [if_neg hh]; exact hk

/-- In apply mode, after the body processes a downtime of a known host,
the composite key is in the store (it either existed or was created). -/
theorem hostDowntimeCore_key_mem (hosts2 : List String) (suffix : String)
    (st : List HostDowntimeKey) (dt : HostDowntime1) (a b c : Int)
    (hh : hosts2.contains dt.host_name = true) :
    hostDowntimeKeyOf suffix dt a b c ∈ (hostDowntimeCore hosts2 suffix false st dt a b c).1 := by
  rw [hostDowntimeCore, if_pos hh]
  dsimp only
  by_cases hc : st.contains (hostDowntimeKeyOf suffix dt a b c) = true
  · rw [if_pos hc]
    exact (contains_iff_mem _ _).mp hc
  · rw [if_neg hc, if_pos (by simp : (!false) = true)]
    exact List.mem_cons_self _ _

/-- Processing a downtime whose host is unknown or whose key is already
stored leaves the store unchanged and schedules nothing. -/
theorem hostDowntimeCore_stable (hosts2 : List String) (suffix : String) (simulate : Bool)
    (st2 : List HostDowntimeKey) (dt : HostDowntime1) (a b c : Int)
    (hmem : hosts2.contains dt.host_name = false
      ∨ hostDowntimeKeyOf suffix dt a b c ∈ st2) :
    (hostDowntimeCore hosts2 suffix simulate st2 dt a b c).1 = st2
    ∧ ∀ cl ∈ (hostDowntimeCore hosts2 suffix simulate st2 dt a b c).2,
        ∀ k, cl ≠ Call.scheduleHostDowntime k := by
  rw [hostDowntimeCore]
  dsimp only
  by_cases hh : hosts2.contains dt.host_name = true
  · have hk : hostDowntimeKeyOf suffix dt a b c ∈ st2 := by
      rcases hmem with hm | hm
      · rw [hh] at hm; cases hm
      · exact hm
    rw [if_pos hh, if_pos ((contains_iff_mem _ _).mpr hk)]
    refine ⟨rfl, ?_⟩
    intro cl hcl k
    simp only [List.mem_singleton] at hcl
    subst hcl
    simp
  · rw [if_neg hh]
    exact ⟨rfl, by simp⟩

/-- A batch run only extends a store whose step only extends it. -/
theorem runSteps_subset {ε κ : Type}
    (step : List κ → ε → Except String (List κ × List Call))
    (hmono : ∀ st e st' cs, step st e = .ok (st', cs) → ∀ k ∈ st, k ∈ st') :
    ∀ (es : List ε) (st : List κ) (k : κ), k ∈ st → k ∈ (runSteps step st es).1 := by
  intro es
  induction es with
  | nil => intro st k hk; exact hk
  | cons e rest ih =>
    intro st k hk
    rw [runSteps]
    cases hs : step st e
    case error m => exact hk
    case ok p =>
      exact ih p.1 k (hmono st e p.1 p.2 (by rw [hs]) k hk)

/-- The host-downtime step only extends the store. -/
theorem hostDowntimeStep_mono (hosts2 : List String) (suffix : String) (simulate : Bool) :
    ∀ (st : List HostDowntimeKey) (dt : HostDowntime1) st' cs,
      hostDowntimeStep hosts2 suffix simulate st dt = .ok (st', cs) → ∀ k ∈ st, k ∈ st' := by
  intro st dt st' cs h k hk
  rw [hostDowntimeStep] at h
  cases hp : downtimeParse dt.start_time dt.end_time dt.duration <;> rw [hp] at h <;>
    dsimp only at h
  · cases h
  case ok tr =>
    obtain ⟨a, b, c⟩ := tr
    dsimp only at h
    injection h with h
    have h1 : (hostDowntimeCore hosts2 suffix simulate st dt a b c).1 = st' := by rw [h]
    rw [← h1]
    exact hostDowntimeCore_subset hosts2 suffix simulate st dt a b c k hk

/-- Running the host-downtime loop a second time from the state the first
pass reached changes nothing: every key the first pass ensured is found,
nothing is scheduled, and the second pass aborts exactly where the first
one did. -/
theorem runSteps_hostDowntime_twice (hosts2 : List String) (suffix : String) :
    ∀ (dts : List HostDowntime1) (st : List HostDowntimeKey),
      (runSteps (hostDowntimeStep hosts2 suffix false)
        (runSteps (hostDowntimeStep hosts2 suffix false) st dts).1 dts).1
        = (runSteps (hostDowntimeStep hosts2 suffix false) st dts).1
      ∧ (∀ cl ∈ (runSteps (hostDowntimeStep hosts2 suffix false)
            (runSteps (hostDowntimeStep hosts2 suffix false) st dts).1 dts).2.1,
          ∀ k, cl ≠ Call.scheduleHostDowntime k)
      ∧ (runSteps (hostDowntimeStep hosts2 suffix false)
            (runSteps (hostDowntimeStep hosts2 suffix false) st dts).1 dts).2.2
        = (runSteps (hostDowntimeStep hosts2 suffix false) st dts).2.2 := by
  intro dts
  induction dts with
  | nil => intro st; exact ⟨rfl, by simp [runSteps], rfl⟩
  | cons dt rest ih =>
    intro st
    cases hp : downtimeParse dt.start_time dt.end_time dt.duration
    case error m =>
      have hstep : ∀ st2, hostDowntimeStep hosts2 suffix false st2 dt = .error m := by
        intro st2
        rw [hostDowntimeStep, hp]
      have e1 : runSteps (hostDowntimeStep hosts2 suffix false) st (dt :: rest)
          = (st, [], some m) := by
        rw [runSteps, hstep st]
      rw [e1]
      dsimp only
      rw [e1]
      exact ⟨rfl, by simp, rfl⟩
    case ok tr =>
      obtain ⟨a, b, c⟩ := tr
      have hstep : ∀ st2, hostDowntimeStep hosts2 suffix false st2 dt
          = .ok (hostDowntimeCore hosts2 suffix false st2 dt a b c) := by
        intro st2
        rw [hostDowntimeStep, hp]
      set stA := (hostDowntimeCore hosts2 suffix false st dt a b c).1 with hstA
      set st1 := (runSteps (hostDowntimeStep hosts2 suffix false) stA rest).1 with hst1
      have hkey : hosts2.contains dt.host_name = false
          ∨ hostDowntimeKeyOf suffix dt a b c ∈ st1 := by
        cases hh : hosts2.contains dt.host_name
        · exact Or.inl rfl
        · refine Or.inr ?_
          rw [hst1]
          exact runSteps_subset _ (hostDowntimeStep_mono hosts2 suffix false) rest stA _
            (hostDowntimeCore_key_mem hosts2 suffix st dt a b c hh)
      have hstable := hostDowntimeCore_stable hosts2 suffix false st1 dt a b c hkey
      have e1 : runSteps (hostDowntimeStep hosts2 suffix false) st (dt :: rest)
          = (st1,
             (hostDowntimeCore hosts2 suffix false st dt a b c).2
               ++ (runSteps (hostDowntimeStep hosts2 suffix false) stA rest).2.1,
             (runSteps (hostDowntimeStep hosts2 suffix false) stA rest).2.2) := by
        rw [runSteps, hstep st]
      have e2 : runSteps (hostDowntimeStep hosts2 suffix false) st1 (dt :: rest)
          = ((runSteps (hostDowntimeStep hosts2 suffix false) st1 rest).1,
             (hostDowntimeCore hosts2 suffix false st1 dt a b c).2
               ++ (runSteps (hostDowntimeStep hosts2 suffix false) st1 rest).2.1,
             (runSteps (hostDowntimeStep hosts2 suffix false) st1 rest).2.2) := by
        rw [runSteps, hstep st1]
        dsimp only
        rw [hstable.1]
      have hrec := ih stA
      rw [e1]
      dsimp only
      rw [e2]
      dsimp only
      rw [← hst1] at hrec
      refine ⟨hrec.1, ?_, hrec.2.2⟩
      intro cl hcl k
      rcases List.mem_append.mp hcl with hx | hx
      · exact hstable.2 cl hx k
      · exact hrec.2.1 cl hx k

/-- C4: running migrate_host_downtimes in apply mode twice in sequence
against the same Target state makes the second run find every downtime
the first run ensured (created or already present) by its composite
existence key with the provenance suffix: the second run leaves the
Target downtime store unchanged, issues no schedule_downtime call, and
stops exactly where the first run stopped. -/
theorem C4_migrate_host_downtimes_idempotent
    (suffix : String) (hostname : Option String) (hosts2 : List String)
    (hostdowntimes : List HostDowntime1) (st : List HostDowntimeKey) :
    (migrate_host_downtimes false suffix hostname hosts2 hostdowntimes
      (migrate_host_downtimes false suffix hostname hosts2 hostdowntimes st).1).1
      = (migrate_host_downtimes false suffix hostname hosts2 hostdowntimes st).1
    ∧ (∀ cl ∈ (migrate_host_downtimes false suffix hostname hosts2 hostdowntimes
          (migrate_host_downtimes false suffix hostname hosts2 hostdowntimes st).1).2.1,
        ∀ k, cl ≠ Call.scheduleHostDowntime k)
    ∧ (migrate_host_downtimes false suffix hostname hosts2 hostdowntimes
          (migrate_host_downtimes false suffix hostname hosts2 hostdowntimes st).1).2.2
      = (migrate_host_downtimes false suffix hostname hosts2 hostdowntimes st).2.2 := by
  simp only [migrate_host_downtimes]
  exact runSteps_hostDowntime_twice hosts2 suffix _ st

end Icinga

namespace Icinga

/-- A batch run whose step never changes state and never issues a
mutating call leaves the state unchanged and issues only non-mutating
calls, whether or not it aborts. -/
theorem runSteps_frame {σ ε : Type} (step : σ → ε → Except String (σ × List Call))
    (hstep : ∀ st e st' cs, step st e = .ok (st', cs) →
      st' = st ∧ ∀ c ∈ cs, c.isMutating = false) :
    ∀ (es : List ε) (st : σ),
      (runSteps step st es).1 = st
      ∧ ∀ c ∈ (runSteps step st es).2.1, c.isMutating = false := by
  intro es
  induction es with
  | nil => intro st; exact ⟨rfl, by simp [runSteps]⟩
  | cons e rest ih =>
    intro st
    rw [runSteps]
    cases hs : step st e
    case error m => exact ⟨rfl, by simp⟩
    case ok p =>
      dsimp only
      have hp := hstep st e p.1 p.2 (by rw [hs])
      constructor
      · rw [(ih p.1).1, hp.1]
      · intro c hc
        rcases List.mem_append.mp hc with hx | hx
        · exact hp.2 c hx
        · exact (ih p.1).2 c hx

/-- In simulate mode the host-downtime body keeps the store and only
reads. -/
theorem hostDowntimeCore_simulate (hosts2 : List String) (suffix : String)
    (st : List HostDowntimeKey) (dt : HostDowntime1) (a b c : Int) :
    (hostDowntimeCore hosts2 suffix true st dt a b c).1 = st
    ∧ ∀ cl ∈ (hostDowntimeCore hosts2 suffix true st dt a b c).2,
        cl.isMutating = false := by
  rw [hostDowntimeCore]
  dsimp only
  by_cases hh : hosts2.contains dt.host_name = true
  · rw [if_pos hh]
    by_cases hc : st.contains (hostDowntimeKeyOf suffix dt a b c) = true
    · rw [if_pos hc]
      exact ⟨rfl, by intro cl hcl; simp at hcl; subst hcl; rfl⟩
    · rw [if_neg hc, if_neg (by simp)]
      exact ⟨rfl, by intro cl hcl; simp at hcl; subst hcl; rfl⟩
  · rw [if_neg hh]
    exact ⟨rfl, by simp⟩

/-- In simulate mode the host-downtime step is a pure read. -/
theorem hostDowntimeStep_simulate_frame (hosts2 : List String) (suffix : String) :
    ∀ st dt st' cs, hostDowntimeStep hosts2 suffix true st dt = .ok (st', cs) →
      st' = st ∧ ∀ cl ∈ cs, cl.isMutating = false := by
  intro st dt st' cs h
  rw [hostDowntimeStep] at h
  cases hp : downtimeParse dt.start_time dt.end_time dt.duration <;> rw [hp] at h <;>
    dsimp only at h
  · cases h
  case ok tr =>
    obtain ⟨a, b, c⟩ := tr
    dsimp only at h
    injection h with h
    have hcore := hostDowntimeCore_simulate hosts2 suffix st dt a b c
    rw [h] at hcore
    exact hcore

/-- In simulate mode the service-downtime step is a pure read. -/
theorem serviceDowntimeStep_simulate_frame (src : String → List Service1)
    (tgt : String → List Service2) (hosts2 : List String) (suffix : String) :
    ∀ st dt st' cs, serviceDowntimeStep src tgt hosts2 suffix true st dt = .ok (st', cs) →
      st' = st ∧ ∀ cl ∈ cs, cl.isMutating = false := by
  intro st dt st' cs h
  rw [serviceDowntimeStep] at h
  cases hp : downtimeParse dt.start_time dt.end_time dt.duration <;> rw [hp] at h <;>
    dsimp only at h
  · cases h
  rename_i tr
  obtain ⟨a, b, c⟩ := tr
  dsimp only at h
  by_cases hh : hosts2.contains dt.host_name = true
  · rw [if_pos hh] at h
    cases hf : (src dt.host_name).filter
        (fun s => s.service_description == dt.service_description) <;> rw [hf] at h <;>
      dsimp only at h
    · cases h
    rename_i s1 s1rest
    cases hg : filterE (serviceDowntimeMatches s1) (tgt dt.host_name) <;> rw [hg] at h <;>
      (try dsimp only at h)
    · cases h
    rename_i cands
    cases cands
    · dsimp only at h
      injection h with h
      injection h with h1 h2
      subst h1
      subst h2
      exact ⟨rfl, by simp⟩
    rename_i s2 crest
    dsimp only at h
    by_cases hc : st.contains
        (⟨dt.host_name, s2.name, dt.author, dt.comment ++ suffix, a, b, c,
          dt.fixed == "1"⟩ : ServiceDowntimeKey) = true
    · rw [if_pos hc] at h
      injection h with h
      injection h with h1 h2
      subst h1
      subst h2
      exact ⟨rfl, by intro cl hcl; simp at hcl; subst hcl; rfl⟩
    · rw [if_neg hc, if_neg (by simp)] at h
      injection h with h
      injection h with h1 h2
      subst h1
      subst h2
      exact ⟨rfl, by intro cl hcl; simp at hcl; subst hcl; rfl⟩
  · rw [if_neg hh] at h
    injection h with h
    injection h with h1 h2
    subst h1
    subst h2
    exact ⟨rfl, by simp⟩

/-- In simulate mode the service-acknowledgement step is a pure skip. -/
theorem serviceAckStep_simulate_frame (src : String → List Service1)
    (tgt : String → List Service2) (hosts2 : List String) (suffix : String) :
    ∀ st a st' cs, serviceAckStep src tgt hosts2 suffix true st a = .ok (st', cs) →
      st' = st ∧ ∀ cl ∈ cs, cl.isMutating = false := by
  intro st a st' cs h
  rw [serviceAckStep] at h
  by_cases hh : hosts2.contains a.host_name = true
  · rw [if_pos hh] at h
    cases hf : (src a.host_name).filter
        (fun s => s.service_description == a.service_description) <;> rw [hf] at h
    · dsimp only at h
      cases h
    rename_i s1 s1rest
    cases s1rest
    · dsimp only at h
      cases hg : filterE (serviceAckMatches s1) (tgt a.host_name) <;> rw [hg] at h <;>
        (try dsimp only at h)
      · cases h
      rename_i cands
      cases cands
      · dsimp only at h
        injection h with h
        injection h with h1 h2
        subst h1
        subst h2
        exact ⟨rfl, by simp⟩
      · dsimp only at h
        rw [if_pos rfl] at h
        injection h with h
        injection h with h1 h2
        subst h1
        subst h2
        exact ⟨rfl, by simp⟩
    · dsimp only at h
      cases h
  · rw [if_neg hh] at h
    injection h with h
    injection h with h1 h2
    subst h1
    subst h2
    exact ⟨rfl, by simp⟩

/-- In simulate mode the host-acknowledgement step is a pure skip. -/
theorem hostAckStep_simulate_frame (suffix : String) :
    ∀ st a st' cs, hostAckStep suffix true st a = .ok (st', cs) →
      st' = st ∧ ∀ cl ∈ cs, cl.isMutating = false := by
  intro st a st' cs h
  rw [hostAckStep, if_pos rfl] at h
  injection h with h
  injection h with h1 h2
  subst h1
  subst h2
  exact ⟨rfl, by simp⟩

/-- In simulate mode the host-notification step issues no call. -/
theorem hostNotifStep_simulate_frame (host1 : List (String × Host1))
    (status1 : String → Option HostStatus1) (hosts2 : List String) (suffix : String) :
    ∀ st hn st' cs, hostNotifStep host1 status1 hosts2 suffix true st hn = .ok (st', cs) →
      st' = st ∧ ∀ cl ∈ cs, cl.isMutating = false := by
  intro st hn st' cs h
  rw [hostNotifStep] at h
  cases hl : host1.lookup hn <;> rw [hl] at h <;> dsimp only at h
  · injection h with h
    injection h with h1 h2
    subst h2
    exact ⟨rfl, by simp⟩
  rename_i h1rec
  by_cases hh : hosts2.contains hn = true
  · rw [if_pos hh] at h
    cases hs : status1 hn <;> rw [hs] at h <;> dsimp only at h
    · cases h
    rename_i hstat
    by_cases hflag : (h1rec.notifications_enabled == "1"
        && !(hstat.notifications_enabled == "1")) = true
    · rw [if_pos hflag, if_neg (by simp)] at h
      injection h with h
      injection h with h1 h2
      subst h2
      exact ⟨rfl, by simp⟩
    · rw [if_neg hflag] at h
      injection h with h
      injection h with h1 h2
      subst h2
      exact ⟨rfl, by simp⟩
  · rw [if_neg hh] at h
    injection h with h
    injection h with h1 h2
    subst h2
    exact ⟨rfl, by simp⟩

/-- In simulate mode the per-host service-notification fold adds no
call. -/
theorem serviceNotifFold_simulate (states : String → List SvcStatus1)
    (tgt : String → List Service2) (hostname : String) (suffix : String) :
    ∀ (svcs : List Service1) (acc : List Call),
      svcs.foldl (fun acc service =>
        match (states hostname).filter
            (fun t => t.check_command == service.check_command) with
        | [] => acc
        | sstate :: _ =>
          if service.notifications_enabled == "1"
              && sstate.notifications_enabled == "0" then
            match (tgt hostname).filter
                (fun x => x.check_command_extracted == service.check_command_extracted) with
            | [s2] =>
              if s2.enable_notifications then
                if !true then
                  acc ++ [.setServiceNotifications hostname s2.name false
                    ("Migrated notification state from Icinga1" ++ suffix)]
                else acc
              else acc
            | _ => acc
          else acc) acc = acc := by
  intro svcs
  induction svcs with
  | nil => intro acc; rfl
  | cons sv rest ih =>
    intro acc
    rw [List.foldl_cons]
    cases hf : (states hostname).filter (fun t => t.check_command == sv.check_command) <;>
      dsimp only
    · exact ih acc
    rename_i sstate srest
    by_cases hflag : (sv.notifications_enabled == "1"
        && sstate.notifications_enabled == "0") = true
    · rw [if_pos hflag]
      cases hg : (tgt hostname).filter
          (fun x => x.check_command_extracted == sv.check_command_extracted)
      · exact ih acc
      rename_i s2 grest
      cases grest
      · dsimp only
        by_cases hen : s2.enable_notifications = true
        · rw [if_pos hen, if_neg (by simp)]
          exact ih acc
        · rw [if_neg hen]
          exact ih acc
      · exact ih acc
    · rw [if_neg hflag]
      exact ih acc

/-- In simulate mode the service-notification step issues no call. -/
theorem serviceNotifStep_simulate_frame (src : String → List Service1)
    (states : String → List SvcStatus1) (tgt : String → List Service2)
    (hosts2 : List String) (suffix : String) :
    ∀ st hn st' cs, serviceNotifStep src states tgt hosts2 suffix true st hn = .ok (st', cs) →
      st' = st ∧ ∀ cl ∈ cs, cl.isMutating = false := by
  intro st hn st' cs h
  rw [serviceNotifStep] at h
  by_cases hh : hosts2.contains hn = true
  · rw [if_pos hh] at h
    injection h with h
    injection h with h1 h2
    rw [serviceNotifFold_simulate states tgt hn suffix (src hn) []] at h2
    subst h2
    exact ⟨rfl, by simp⟩
  · rw [if_neg hh] at h
    injection h with h
    injection h with h1 h2
    subst h2
    exact ⟨rfl, by simp⟩

end Icinga

namespace Icinga

/-- C5: invoked with simulate=True, none of the six migration operations
(host and service downtimes, host and service acknowledgements, host and
service notification states) ever issues a mutating Target call
(schedule_downtime, acknowledge, update), and the Target object state
threaded through the run is unchanged. -/
theorem C5_simulate_never_mutates
    (suffix : String) (hostname : Option String) (hosts2 : List String)
    (src : String → List Service1) (tgt : String → List Service2)
    (hostdowntimes : List HostDowntime1) (servicedowntimes : List ServiceDowntime1)
    (sacks : List ServiceAck1) (hacks : List HostAck1)
    (host1 : List (String × Host1)) (status1 : String → Option HostStatus1)
    (states : String → List SvcStatus1) (icinga1_hostnames : List String)
    (sth : List HostDowntimeKey) (sts : List ServiceDowntimeKey)
    (sta : List ServiceAckKey) (stha : List HostAckKey) :
    ((migrate_host_downtimes true suffix hostname hosts2 hostdowntimes sth).1 = sth
      ∧ ∀ c ∈ (migrate_host_downtimes true suffix hostname hosts2 hostdowntimes sth).2.1,
          c.isMutating = false)
    ∧ ((migrate_service_downtimes true suffix hostname hosts2 src tgt
          servicedowntimes sts).1 = sts
      ∧ ∀ c ∈ (migrate_service_downtimes true suffix hostname hosts2 src tgt
          servicedowntimes sts).2.1, c.isMutating = false)
    ∧ ((migrate_service_acknowledgements true suffix hostname hosts2 src tgt
          sacks sta).1 = sta
      ∧ ∀ c ∈ (migrate_service_acknowledgements true suffix hostname hosts2 src tgt
          sacks sta).2.1, c.isMutating = false)
    ∧ ((migrate_host_acknowledgements true suffix hostname hacks stha).1 = stha
      ∧ ∀ c ∈ (migrate_host_acknowledgements true suffix hostname hacks stha).2.1,
          c.isMutating = false)
    ∧ (∀ c ∈ (migrate_host_notification_states true suffix hostname host1
          status1 hosts2).2.1, c.isMutating = false)
    ∧ (∀ c ∈ (migrate_service_notification_states true suffix hostname
          icinga1_hostnames src states tgt hosts2).2.1, c.isMutating = false) := by
  refine ⟨?_, ?_, ?_, ?_, ?_, ?_⟩
  · simp only [migrate_host_downtimes]
    exact runSteps_frame _
      (fun st e st' cs h => hostDowntimeStep_simulate_frame hosts2 suffix st e st' cs h) _ sth
  · simp only [migrate_service_downtimes]
    exact runSteps_frame _
      (fun st e st' cs h =>
        serviceDowntimeStep_simulate_frame src tgt hosts2 suffix st e st' cs h) _ sts
  · simp only [migrate_service_acknowledgements]
    exact runSteps_frame _
      (fun st e st' cs h =>
        serviceAckStep_simulate_frame src tgt hosts2 suffix st e st' cs h) _ sta
  · simp only [migrate_host_acknowledgements]
    exact runSteps_frame _
      (fun st e st' cs h => hostAckStep_simulate_frame suffix st e st' cs h) _ stha
  · simp only [migrate_host_notification_states]
    exact (runSteps_frame _
      (fun st e st' cs h =>
        hostNotifStep_simulate_frame host1 status1 hosts2 suffix st e st' cs h) _ ()).2
  · simp only [migrate_service_notification_states]
    exact (runSteps_frame _
      (fun st e st' cs h =>
        serviceNotifStep_simulate_frame src states tgt hosts2 suffix st e st' cs h) _ ()).2

end Icinga

namespace Icinga

/-- First-occurrence deduplication of strings (the key order of the
Python Counter built over the extracted check commands). -/
def dedupKeysAux (seen : List String) : List String → List String
  | [] => []
  | x :: xs =>
    if seen.contains x then dedupKeysAux seen xs
    else x :: dedupKeysAux (x :: seen) xs

/-- The distinct values of a list, first occurrences first. -/
def dedupKeys (l : List String) : List String := dedupKeysAux [] l

/-- Every unseen member of the list survives deduplication. -/
theorem mem_dedupKeysAux_of (x : String) :
    ∀ (l seen : List String), x ∈ l → ¬ x ∈ seen → x ∈ dedupKeysAux seen l := by
  intro l
  induction l with
  | nil => intro seen hx _; cases hx
  | cons y ys ih =>
    intro seen hx hseen
    rw [dedupKeysAux]
    by_cases hy : seen.contains y = true
    · rw [if_pos hy]
      rcases List.mem_cons.mp hx with he | hm
      · exact absurd ((contains_iff_mem _ _).mp (he ▸ hy)) hseen
      · exact ih seen hm hseen
    · rw [if_neg hy]
      rcases List.mem_cons.mp hx with he | hm
      · exact he ▸ List.mem_cons_self _ _
      · by_cases hxy : x = y
        · exact hxy ▸ List.mem_cons_self _ _
        · refine List.mem_cons_of_mem _ (ih (y :: seen) hm ?_)
          intro hcon
          rcases List.mem_cons.mp hcon with he2 | hm2
          · exact hxy he2
          · exact hseen hm2

/-- Every member of a list survives deduplication. -/
theorem mem_dedupKeys_of (x : String) (l : List String) (hx : x ∈ l) :
    x ∈ dedupKeys l :=
  mem_dedupKeysAux_of x l [] hx (by simp)

/-- The per-host report of `compare_services_manual`: the duplicated
extracted check commands and the Icinga1/Icinga2 services printed for
manual resolution. -/
structure AmbiguityReport where
  duplicates : List String
  icinga1_ambiguous : List Service1
  icinga2_ambiguous : List Service2

/-- The report `compare_services_manual` assembles for one host: the
extracted commands occurring more than once on the Icinga1 side, the
Icinga1 services deriving one of them, and the Icinga2 services whose
extracted command is one of them. -/
def ambiguityReportOf (src : String → List Service1) (tgt : String → List Service2)
    (h : String) : AmbiguityReport :=
  let ccs := (src h).map Service1.check_command_extracted
  let dups := (dedupKeys ccs).filter (fun c => decide (1 < ccs.count c))
  ⟨dups,
   (src h).filter (fun s => dups.contains s.check_command_extracted),
   (tgt h).filter (fun s => dups.contains s.check_command_extracted)⟩

/-- Embedding of `compare.compare_services_manual`: per host, report the
services with duplicated extracted check commands (hosts without
duplicates print nothing). -/
def compare_services_manual (hostnames : List String) (src : String → List Service1)
    (tgt : String → List Service2) : List (String × AmbiguityReport) :=
  hostnames.filterMap fun h =>
    if (ambiguityReportOf src tgt h).duplicates.isEmpty then Option.none
    else some (h, ambiguityReportOf src tgt h)

/-- C2 amended: for a host with two or more Source services deriving the
same extracted check command, compare_services_manual reports every such
Source service as ambiguous for manual resolution; however — contrary to
the original claim — migrate_service_downtimes does pair such a service
with a Target service: whenever the candidate filter returns a non-empty
list, the per-downtime step existence-checks and (in apply mode, when
absent) schedules against the FIRST candidate, after only logging the
ambiguity. -/
theorem C2_ambiguous_reported_but_first_candidate_paired
    (hostnames : List String) (src : String → List Service1) (tgt : String → List Service2)
    (h : String) (s : Service1)
    (hmem : h ∈ hostnames) (hs : s ∈ src h)
    (hdup : 1 < ((src h).map Service1.check_command_extracted).count
      s.check_command_extracted)
    (hosts2 : List String) (suffix : String) (simulate : Bool)
    (st : List ServiceDowntimeKey) (dt : ServiceDowntime1) (a b c : Int)
    (s1 : Service1) (s1rest : List Service1) (s2 : Service2) (crest : List Service2)
    (hp : downtimeParse dt.start_time dt.end_time dt.duration = .ok (a, b, c))
    (hh : hosts2.contains dt.host_name = true)
    (hf : (src dt.host_name).filter
      (fun t => t.service_description == dt.service_description) = s1 :: s1rest)
    (hg : filterE (serviceDowntimeMatches s1) (tgt dt.host_name) = .ok (s2 :: crest)) :
    ((h, ambiguityReportOf src tgt h) ∈ compare_services_manual hostnames src tgt
      ∧ s ∈ (ambiguityReportOf src tgt h).icinga1_ambiguous
      ∧ s.check_command_extracted ∈ (ambiguityReportOf src tgt h).duplicates)
    ∧ serviceDowntimeStep src tgt hosts2 suffix simulate st dt
        = (if st.contains (⟨dt.host_name, s2.name, dt.author, dt.comment ++ suffix,
              a, b, c, dt.fixed == "1"⟩ : ServiceDowntimeKey) then
            .ok (st, [.getServiceDowntimes
              ⟨dt.host_name, s2.name, dt.author, dt.comment ++ suffix,
                a, b, c, dt.fixed == "1"⟩])
          else if !simulate then
            .ok ((⟨dt.host_name, s2.name, dt.author, dt.comment ++ suffix,
                a, b, c, dt.fixed == "1"⟩ : ServiceDowntimeKey) :: st,
              [.getServiceDowntimes
                ⟨dt.host_name, s2.name, dt.author, dt.comment ++ suffix,
                  a, b, c, dt.fixed == "1"⟩,
               .scheduleServiceDowntime
                ⟨dt.host_name, s2.name, dt.author, dt.comment ++ suffix,
                  a, b, c, dt.fixed == "1"⟩])
          else .ok (st, [.getServiceDowntimes
            ⟨dt.host_name, s2.name, dt.author, dt.comment ++ suffix,
              a, b, c, dt.fixed == "1"⟩])) := by
  have hcc : s.check_command_extracted ∈ (ambiguityReportOf src tgt h).duplicates := by
    rw [ambiguityReportOf]
    dsimp only
    refine List.mem_filter.mpr ⟨?_, by simpa using hdup⟩
    exact mem_dedupKeys_of _ _ (List.mem_map_of_mem _ hs)
  refine ⟨⟨?_, ?_, hcc⟩, ?_⟩
  · rw [compare_services_manual]
    refine List.mem_filterMap.mpr ⟨h, hmem, ?_⟩
    rw [if_neg ?_]
    intro hempty
    rw [List.isEmpty_iff] at hempty
    rw [hempty] at hcc
    cases hcc
  · rw [ambiguityReportOf]
    dsimp only
    refine List.mem_filter.mpr ⟨hs, ?_⟩
    rw [ambiguityReportOf] at hcc
    dsimp only at hcc
    exact (contains_iff_mem _ _).mpr hcc
  · rw [serviceDowntimeStep, hp]
    dsimp only
    rw [if_pos hh, hf]
    dsimp only
    rw [hg]

end Icinga

namespace Icinga

/-- C2 counterexample: on host h1 two Source services (svc A, svc B)
both derive the extracted check command foo, yet migrating the downtime
of svc A in apply mode selects the first of the two matching Target
candidates (t1svc) and schedules the downtime against it — refuting the
claim that such services are never paired with any Target service and
that migration never selects the first matching candidate. -/
theorem C2_counterexample_migration_pairs_ambiguous :
    (1 < (((fun hh : String => if hh == "h1" then
          [(⟨"h1", "svc A", "check_foo_a", "foo", "1", Option.none, Option.none,
              Option.none⟩ : Service1),
           ⟨"h1", "svc B", "check_foo_b", "foo", "1", Option.none, Option.none,
              Option.none⟩] else []) "h1").map
        Service1.check_command_extracted).count "foo")
    ∧ migrate_service_downtimes false ".migrated" Option.none ["h1"]
        (fun hh => if hh == "h1" then
          [(⟨"h1", "svc A", "check_foo_a", "foo", "1", Option.none, Option.none,
              Option.none⟩ : Service1),
           ⟨"h1", "svc B", "check_foo_b", "foo", "1", Option.none, Option.none,
              Option.none⟩] else [])
        (fun hh => if hh == "h1" then
          [(⟨"t1svc", "T1", "foo", true, Option.none, "", .dict []⟩ : Service2),
           ⟨"t2svc", "T2", "foo", true, Option.none, "", .dict []⟩] else [])
        [⟨"h1", "svc A", "alice", "doomed", "100", "200", "300", "1"⟩] []
      = ([⟨"h1", "t1svc", "alice", "doomed.migrated", 100, 200, 300, true⟩],
         [.getServiceDowntimes
            ⟨"h1", "t1svc", "alice", "doomed.migrated", 100, 200, 300, true⟩,
          .scheduleServiceDowntime
            ⟨"h1", "t1svc", "alice", "doomed.migrated", 100, 200, 300, true⟩],
         Option.none) :=
  ⟨by decide, rfl⟩

/-- Witness for the amended C2 at the same concrete configuration. -/
theorem C2_ambiguous_reported_but_first_candidate_paired_witness :
    ((("h1", ambiguityReportOf
        (fun hh => if hh == "h1" then
          [(⟨"h1", "svc A", "check_foo_a", "foo", "1", Option.none, Option.none,
              Option.none⟩ : Service1),
           ⟨"h1", "svc B", "check_foo_b", "foo", "1", Option.none, Option.none,
              Option.none⟩] else [])
        (fun hh => if hh == "h1" then
          [(⟨"t1svc", "T1", "foo", true, Option.none, "", .dict []⟩ : Service2),
           ⟨"t2svc", "T2", "foo", true, Option.none, "", .dict []⟩] else []) "h1")
      ∈ compare_services_manual ["h1"]
        (fun hh => if hh == "h1" then
          [(⟨"h1", "svc A", "check_foo_a", "foo", "1", Option.none, Option.none,
              Option.none⟩ : Service1),
           ⟨"h1", "svc B", "check_foo_b", "foo", "1", Option.none, Option.none,
              Option.none⟩] else [])
        (fun hh => if hh == "h1" then
          [(⟨"t1svc", "T1", "foo", true, Option.none, "", .dict []⟩ : Service2),
           ⟨"t2svc", "T2", "foo", true, Option.none, "", .dict []⟩] else []))
      ∧ (⟨"h1", "svc A", "check_foo_a", "foo", "1", Option.none, Option.none,
            Option.none⟩ : Service1) ∈ (ambiguityReportOf
        (fun hh => if hh == "h1" then
          [(⟨"h1", "svc A", "check_foo_a", "foo", "1", Option.none, Option.none,
              Option.none⟩ : Service1),
           ⟨"h1", "svc B", "check_foo_b", "foo", "1", Option.none, Option.none,
              Option.none⟩] else [])
        (fun hh => if hh == "h1" then
          [(⟨"t1svc", "T1", "foo", true, Option.none, "", .dict []⟩ : Service2),
           ⟨"t2svc", "T2", "foo", true, Option.none, "", .dict []⟩] else [])
        "h1").icinga1_ambiguous
      ∧ "foo" ∈ (ambiguityReportOf
        (fun hh => if hh == "h1" then
          [(⟨"h1", "svc A", "check_foo_a", "foo", "1", Option.none, Option.none,
              Option.none⟩ : Service1),
           ⟨"h1", "svc B", "check_foo_b", "foo", "1", Option.none, Option.none,
              Option.none⟩] else [])
        (fun hh => if hh == "h1" then
          [(⟨"t1svc", "T1", "foo", true, Option.none, "", .dict []⟩ : Service2),
           ⟨"t2svc", "T2", "foo", true, Option.none, "", .dict []⟩] else [])
        "h1").duplicates)
    ∧ serviceDowntimeStep
        (fun hh => if hh == "h1" then
          [(⟨"h1", "svc A", "check_foo_a", "foo", "1", Option.none, Option.none,
              Option.none⟩ : Service1),
           ⟨"h1", "svc B", "check_foo_b", "foo", "1", Option.none, Option.none,
              Option.none⟩] else [])
        (fun hh => if hh == "h1" then
          [(⟨"t1svc", "T1", "foo", true, Option.none, "", .dict []⟩ : Service2),
           ⟨"t2svc", "T2", "foo", true, Option.none, "", .dict []⟩] else [])
        ["h1"] ".migrated" false []
        ⟨"h1", "svc A", "alice", "doomed", "100", "200", "300", "1"⟩
      = .ok ([⟨"h1", "t1svc", "alice", "doomed.migrated", 100, 200, 300, true⟩],
          [.getServiceDowntimes
            ⟨"h1", "t1svc", "alice", "doomed.migrated", 100, 200, 300, true⟩,
           .scheduleServiceDowntime
            ⟨"h1", "t1svc", "alice", "doomed.migrated", 100, 200, 300, true⟩]) :=
  C2_ambiguous_reported_but_first_candidate_paired
    ["h1"]
    (fun hh => if hh == "h1" then
      [(⟨"h1", "svc A", "check_foo_a", "foo", "1", Option.none, Option.none,
          Option.none⟩ : Service1),
       ⟨"h1", "svc B", "check_foo_b", "foo", "1", Option.none, Option.none,
          Option.none⟩] else [])
    (fun hh => if hh == "h1" then
      [(⟨"t1svc", "T1", "foo", true, Option.none, "", .dict []⟩ : Service2),
       ⟨"t2svc", "T2", "foo", true, Option.none, "", .dict []⟩] else [])
    "h1"
    ⟨"h1", "svc A", "check_foo_a", "foo", "1", Option.none, Option.none, Option.none⟩
    (by decide) (by decide) (by decide)
    ["h1"] ".migrated" false []
    ⟨"h1", "svc A", "alice", "doomed", "100", "200", "300", "1"⟩ 100 200 300
    ⟨"h1", "svc A", "check_foo_a", "foo", "1", Option.none, Option.none, Option.none⟩
    []
    ⟨"t1svc", "T1", "foo", true, Option.none, "", .dict []⟩
    [⟨"t2svc", "T2", "foo", true, Option.none, "", .dict []⟩]
    rfl rfl rfl rfl

end Icinga

namespace Icinga

/-- C6 amended: failure to resolve the Target counterpart of an entity is
logged and skipped and the batch continues — a downtime whose host is
missing from Icinga2, or whose resolved Source service matches no Icinga2
candidate, yields a skip step. But — contrary to the original claim —
not every per-entity anomaly is tolerated: a service downtime whose
service_description matches no Icinga1 service raises IndexError
(`[...][0]`), a service acknowledgement whose description does not match
exactly one Icinga1 service fails its assert, and an erroring entity
aborts the remaining batch. -/
theorem C6_target_unresolved_skips_but_source_unresolved_aborts
    (src : String → List Service1) (tgt : String → List Service2)
    (hosts2 : List String) (suffix : String) (simulate : Bool)
    (st : List ServiceDowntimeKey) (dt : ServiceDowntime1) (a b c : Int)
    (sta : List ServiceAckKey) (ack : ServiceAck1)
    (s1 : Service1) (s1rest : List Service1)
    (hp : downtimeParse dt.start_time dt.end_time dt.duration = .ok (a, b, c)) :
    (hosts2.contains dt.host_name = false →
      serviceDowntimeStep src tgt hosts2 suffix simulate st dt = .ok (st, []))
    ∧ (hosts2.contains dt.host_name = true →
       (src dt.host_name).filter
         (fun t => t.service_description == dt.service_description) = s1 :: s1rest →
       filterE (serviceDowntimeMatches s1) (tgt dt.host_name) = .ok [] →
       serviceDowntimeStep src tgt hosts2 suffix simulate st dt = .ok (st, []))
    ∧ (hosts2.contains dt.host_name = true →
       (src dt.host_name).filter
         (fun t => t.service_description == dt.service_description) = [] →
       serviceDowntimeStep src tgt hosts2 suffix simulate st dt = .error "IndexError")
    ∧ (hosts2.contains ack.host_name = true →
       ((src ack.host_name).filter
         (fun t => t.service_description == ack.service_description)).length ≠ 1 →
       serviceAckStep src tgt hosts2 suffix simulate sta ack = .error "AssertionError")
    ∧ (∀ {σ ε : Type} (step : σ → ε → Except String (σ × List Call))
        (st0 : σ) (e : ε) (es : List ε) (m : String), step st0 e = .error m →
        runSteps step st0 (e :: es) = (st0, [], some m)) := by
  refine ⟨?_, ?_, ?_, ?_, ?_⟩
  · intro hh
    rw [serviceDowntimeStep, hp]
    dsimp only
    rw [if_neg (by intro hcon; rw [hh] at hcon; cases hcon)]
  · intro hh hf hg
    rw [serviceDowntimeStep, hp]
    dsimp only
    rw [if_pos hh, hf]
    dsimp only
    rw [hg]
  · intro hh hf
    rw [serviceDowntimeStep, hp]
    dsimp only
    rw [if_pos hh, hf]
  · intro hh hlen
    rw [serviceAckStep, if_pos hh]
    cases hf : (src ack.host_name).filter
        (fun t => t.service_description == ack.service_description) with
    | nil => rfl
    | cons x xs =>
      cases xs with
      | nil => exact absurd (by rw [hf]; rfl) hlen
      | cons y ys => rfl
  · intro σ ε step st0 e es m hstep
    rw [runSteps, hstep]

/-- C6 counterexample: a batch of two service downtimes where the first
downtime has a description matching no Icinga1 service aborts with
IndexError before touching the second downtime, although the second one
alone would be migrated — refuting the claim that no per-entity anomaly
aborts the remaining batch. -/
theorem C6_counterexample_batch_aborts_on_unmatched_description :
    migrate_service_downtimes false ".migrated" Option.none ["h1"]
      (fun hh => if hh == "h1" then
        [(⟨"h1", "good svc", "check_g", "g", "1", Option.none, Option.none,
            Option.none⟩ : Service1)] else [])
      (fun hh => if hh == "h1" then
        [(⟨"tg", "TG", "g", true, Option.none, "", .dict []⟩ : Service2)] else [])
      [⟨"h1", "ghost svc", "bob", "gone", "1", "2", "3", "0"⟩,
       ⟨"h1", "good svc", "bob", "ok", "10", "20", "30", "1"⟩] []
      = ([], [], some "IndexError")
    ∧ migrate_service_downtimes false ".migrated" Option.none ["h1"]
      (fun hh => if hh == "h1" then
        [(⟨"h1", "good svc", "check_g", "g", "1", Option.none, Option.none,
            Option.none⟩ : Service1)] else [])
      (fun hh => if hh == "h1" then
        [(⟨"tg", "TG", "g", true, Option.none, "", .dict []⟩ : Service2)] else [])
      [⟨"h1", "good svc", "bob", "ok", "10", "20", "30", "1"⟩] []
      = ([⟨"h1", "tg", "bob", "ok.migrated", 10, 20, 30, true⟩],
         [.getServiceDowntimes ⟨"h1", "tg", "bob", "ok.migrated", 10, 20, 30, true⟩,
          .scheduleServiceDowntime ⟨"h1", "tg", "bob", "ok.migrated", 10, 20, 30, true⟩],
         Option.none) :=
  ⟨rfl, rfl⟩

/-- Witness for the amended C6 at concrete entities for each branch. -/
theorem C6_target_unresolved_skips_but_source_unresolved_aborts_witness :
    serviceDowntimeStep
      (fun hh => if hh == "h1" then
        [(⟨"h1", "good svc", "check_g", "g", "1", Option.none, Option.none,
            Option.none⟩ : Service1)] else [])
      (fun _ => []) ["h1"] ".migrated" false []
      ⟨"h2", "good svc", "bob", "ok", "10", "20", "30", "1"⟩ = .ok ([], [])
    ∧ serviceDowntimeStep
      (fun hh => if hh == "h1" then
        [(⟨"h1", "good svc", "check_g", "g", "1", Option.none, Option.none,
            Option.none⟩ : Service1)] else [])
      (fun _ => []) ["h1"] ".migrated" false []
      ⟨"h1", "good svc", "bob", "ok", "10", "20", "30", "1"⟩ = .ok ([], [])
    ∧ serviceDowntimeStep
      (fun hh => if hh == "h1" then
        [(⟨"h1", "good svc", "check_g", "g", "1", Option.none, Option.none,
            Option.none⟩ : Service1)] else [])
      (fun _ => []) ["h1"] ".migrated" false []
      ⟨"h1", "ghost svc", "bob", "gone", "1", "2", "3", "0"⟩ = .error "IndexError"
    ∧ serviceAckStep
      (fun hh => if hh == "h1" then
        [(⟨"h1", "good svc", "check_g", "g", "1", Option.none, Option.none,
            Option.none⟩ : Service1)] else [])
      (fun _ => []) ["h1"] ".migrated" false []
      ⟨"h1", "ghost svc", "bob", "oops"⟩ = .error "AssertionError"
    ∧ runSteps (serviceDowntimeStep
        (fun hh => if hh == "h1" then
          [(⟨"h1", "good svc", "check_g", "g", "1", Option.none, Option.none,
              Option.none⟩ : Service1)] else [])
        (fun _ => []) ["h1"] ".migrated" false) []
        [⟨"h1", "ghost svc", "bob", "gone", "1", "2", "3", "0"⟩]
      = ([], [], some "IndexError") :=
  ⟨(C6_target_unresolved_skips_but_source_unresolved_aborts
      (fun hh => if hh == "h1" then
        [(⟨"h1", "good svc", "check_g", "g", "1", Option.none, Option.none,
            Option.none⟩ : Service1)] else [])
      (fun _ => []) ["h1"] ".migrated" false []
      ⟨"h2", "good svc", "bob", "ok", "10", "20", "30", "1"⟩ 10 20 30
      [] ⟨"h1", "ghost svc", "bob", "oops"⟩
      ⟨"h1", "good svc", "check_g", "g", "1", Option.none, Option.none, Option.none⟩ []
      rfl).1 (by decide),
   (C6_target_unresolved_skips_but_source_unresolved_aborts
      (fun hh => if hh == "h1" then
        [(⟨"h1", "good svc", "check_g", "g", "1", Option.none, Option.none,
            Option.none⟩ : Service1)] else [])
      (fun _ => []) ["h1"] ".migrated" false []
      ⟨"h1", "good svc", "bob", "ok", "10", "20", "30", "1"⟩ 10 20 30
      [] ⟨"h1", "ghost svc", "bob", "oops"⟩
      ⟨"h1", "good svc", "check_g", "g", "1", Option.none, Option.none, Option.none⟩ []
      rfl).2.1 (by decide) rfl rfl,
   (C6_target_unresolved_skips_but_source_unresolved_aborts
      (fun hh => if hh == "h1" then
        [(⟨"h1", "good svc", "check_g", "g", "1", Option.none, Option.none,
            Option.none⟩ : Service1)] else [])
      (fun _ => []) ["h1"] ".migrated" false []
      ⟨"h1", "ghost svc", "bob", "gone", "1", "2", "3", "0"⟩ 1 2 3
      [] ⟨"h1", "ghost svc", "bob", "oops"⟩
      ⟨"h1", "good svc", "check_g", "g", "1", Option.none, Option.none, Option.none⟩ []
      rfl).2.2.1 (by decide) rfl,
   (C6_target_unresolved_skips_but_source_unresolved_aborts
      (fun hh => if hh == "h1" then
        [(⟨"h1", "good svc", "check_g", "g", "1", Option.none, Option.none,
            Option.none⟩ : Service1)] else [])
      (fun _ => []) ["h1"] ".migrated" false []
      ⟨"h1", "ghost svc", "bob", "gone", "1", "2", "3", "0"⟩ 1 2 3
      [] ⟨"h1", "ghost svc", "bob", "oops"⟩
      ⟨"h1", "good svc", "check_g", "g", "1", Option.none, Option.none, Option.none⟩ []
      rfl).2.2.2.1 (by decide) (by decide),
   (C6_target_unresolved_skips_but_source_unresolved_aborts
      (fun hh => if hh == "h1" then
        [(⟨"h1", "good svc", "check_g", "g", "1", Option.none, Option.none,
            Option.none⟩ : Service1)] else [])
      (fun _ => []) ["h1"] ".migrated" false []
      ⟨"h1", "ghost svc", "bob", "gone", "1", "2", "3", "0"⟩ 1 2 3
      [] ⟨"h1", "ghost svc", "bob", "oops"⟩
      ⟨"h1", "good svc", "check_g", "g", "1", Option.none, Option.none, Option.none⟩ []
      rfl).2.2.2.2 _ [] _ [] "IndexError" rfl⟩

end Icinga

namespace Icinga

/-- Generic Python dict assignment for the per-command accumulator
dicts. -/
def dictSetG {α : Type} : List (String × α) → String → α → List (String × α)
  | [], k, v => [(k, v)]
  | (k', v') :: rest, k, v =>
    if k' == k then (k', v) :: rest else (k', v') :: dictSetG rest k v

/-- Map a fallible function over a list (a Python list comprehension
whose expression may raise). -/
def mapE {α β : Type} (f : α → Except String β) : List α → Except String (List β)
  | [] => .ok []
  | x :: xs =>
    match f x with
    | .error e => .error e
    | .ok y =>
      match mapE f xs with
      | .error e => .error e
      | .ok ys => .ok (y :: ys)

/-- Fold a fallible function over a list. -/
def foldE {σ α : Type} (f : σ → α → Except String σ) : σ → List α → Except String σ
  | s, [] => .ok s
  | s, x :: xs =>
    match f s x with
    | .error e => .error e
    | .ok t => foldE f t xs

/-- The Icinga2 no-SLA value read with plain indexing wrapped in a bare
try/except: attrs.vars.nosla when vars is a dict holding the key, the
Python default False otherwise. -/
def service2NoslaVal (s2 : Service2) : PyVal :=
  match s2.vars with
  | .dict kvs =>
    match kvs.lookup "nosla" with
    | some v => v
    | Option.none => .bool false
  | _ => .bool false

/-- Python equality between a bool and an embedded value: bools compare
numerically with bools and numbers, and are unequal to anything else. -/
def pyBoolEq (b : Bool) : PyVal → Bool
  | .bool b2 => b == b2
  | .num q => (if b then (1 : ℚ) else 0) == q
  | _ => false

/-- Python str() of a bool. -/
def boolStr (b : Bool) : String := if b then "True" else "False"

/-- A short rendering of an embedded value for report lines (numeric and
dict rendering abstracted; no claim depends on it). -/
def pyRepr : PyVal → String
  | .none => "None"
  | .bool b => boolStr b
  | .num _ => "<number>"
  | .str s => s
  | .dict _ => "\x7b...\x7d"

/-- The accumulator dicts of the per-command comparison loop of
`compare_services`. -/
structure SvcCmpAcc where
  notification_states : List (String × (Bool × Bool))
  nosla_diff : List (String × (Bool × PyVal))
  notesurl_diff : List (String × (String × String))

/-- One iteration of the per-command loop of `compare_services`: when the
command resolves on both sides, compare the notification state (a missing
status record makes the fallback read raise KeyError) and the no-SLA
markers; the notes urls are read into locals that the source never
compares, so notesurl_diff is never written. -/
def svcCmpStep (src : List Service1) (states : List SvcStatus1) (tgt2 : List Service2)
    (acc : SvcCmpAcc) (cc : String) : Except String SvcCmpAcc :=
  match src.filter (fun s => s.check_command_extracted == cc),
      tgt2.filter (fun s => s.check_command_extracted == cc) with
  | s1 :: _, s2 :: _ =>
    let key := s1.check_command ++ " - " ++ s1.service_description
    match ((match states.filter (fun t => t.check_command == s1.check_command
          && t.service_description == s1.service_description) with
      | t :: _ => .ok (t.notifications_enabled == "1")
      | [] => .error "KeyError") : Except String Bool) with
    | .error e => .error e
    | .ok n1 =>
      let n2 := s2.original_enable_notifications.getD s2.enable_notifications
      let acc1 := if n1 != n2 then
          { acc with notification_states := dictSetG acc.notification_states key (n1, n2) }
        else acc
      let nos1 := s1.notes == some "no-sla"
      let nos2 := service2NoslaVal s2
      let acc2 := if !pyBoolEq nos1 nos2 then
          { acc1 with nosla_diff := dictSetG acc1.nosla_diff key (nos1, nos2) }
        else acc1
      let _notes1 := s1.notes_url.getD ""
      let _notes2 := s2.notes_url
      .ok acc2
  | _, _ => .ok acc

/-- The try/except-guarded removal loop of `compare_services`: each
Icinga2 vars.comment value that is a string removes one occurrence from
the missing list (a non-string or absent value removes nothing, as
`list.remove` raises ValueError which is passed). -/
def removeComments (missing : List String) (comments : List PyVal) : List String :=
  comments.foldl (fun m c =>
    match c with
    | .str s => m.erase s
    | _ => m) missing

/-- The per-host entry of the diff dict of `compare_services`. The three
comparison fields hold the artifact of `list.extend(dict)`, which extends
with the keys of the entry dict. -/
structure HostDiff where
  host_name : String
  icinga1_missing_icinga2 : List String
  notification_states : List String
  nosla_diff : List String
  notesurl_diff : List String
deriving DecidableEq, Repr

/-- `list.extend({command: .., icinga1: .., icinga2: ..})` per entry:
each entry contributes the three key strings. -/
def extendKeysArtifact {α : Type} (entries : List (String × α)) : List String :=
  entries.foldl (fun l _ => l ++ ["command", "icinga1", "icinga2"]) []

/-- The body of `compare_services` for one Icinga2 host: filter out the
nrpe-health service, compute the missing extracted commands, remove the
comment aliases, run the per-command comparisons and assemble the diff
entry and report lines (only when some difference was found). -/
def compareServicesHost (h : String) (src : List Service1) (states : List SvcStatus1)
    (tgtAll : List Service2) : Except String (Option HostDiff × List String) :=
  let tgt2 := tgtAll.filter (fun s => s.name != "nrpe-health")
  let ccs1 := src.map Service1.check_command_extracted
  let ccs2 := tgt2.map Service2.check_command_extracted
  let missing0 := ccs1.filter (fun cc => !ccs2.contains cc)
  match mapE service2CommentVal tgt2 with
  | .error e => .error e
  | .ok comments =>
    let missing := removeComments missing0 comments
    match foldE (svcCmpStep src states tgt2) ⟨[], [], []⟩ (ccs1 ++ ccs2) with
    | .error e => .error e
    | .ok acc =>
      if !missing.isEmpty || !acc.notification_states.isEmpty
          || !acc.nosla_diff.isEmpty then
        .ok (some ⟨h, missing, extendKeysArtifact acc.notification_states,
              extendKeysArtifact acc.nosla_diff, extendKeysArtifact acc.notesurl_diff⟩,
          ["\n" ++ h ++ "\n"]
          ++ (if !missing.isEmpty then
                ["Icinga1 services missing in Icinga2:\n"]
                ++ missing.map (fun cmd => cmd ++ "\n") ++ ["\n"]
              else [])
          ++ (if !acc.notification_states.isEmpty then
                ["Different notification states:\n"]
                ++ acc.notification_states.map (fun p =>
                    "Service: " ++ p.1 ++ ", Icinga1: " ++ boolStr p.2.1
                      ++ ", Icinga2: " ++ boolStr p.2.2 ++ "\n")
              else [])
          ++ (if !acc.nosla_diff.isEmpty then
                ["Different SLA:\n"]
                ++ acc.nosla_diff.map (fun p =>
                    "Service: " ++ p.1 ++ ", Icinga1: " ++ boolStr p.2.1
                      ++ ", Icinga2: " ++ pyRepr p.2.2 ++ "\n")
              else [])
          ++ (if !acc.notesurl_diff.isEmpty then
                ["Different notes_url:\n"]
                ++ acc.notesurl_diff.map (fun p =>
                    "Service: " ++ p.1 ++ ", Icinga1: " ++ p.2.1
                      ++ ", Icinga2: " ++ p.2.2 ++ "\n")
              else []))
      else .ok (Option.none, [])

/-- Embedding of `compare.compare_services`: iterate the Icinga2 hosts,
collect the diff dict and the written report lines. -/
def compare_services (hosts2names : List String) (src : String → List Service1)
    (states : String → List SvcStatus1) (tgt : String → List Service2) :
    Except String (List (String × HostDiff) × List String) :=
  match hosts2names with
  | [] => .ok ([], [])
  | h :: rest =>
    match compareServicesHost h (src h) (states h) (tgt h) with
    | .error e => .error e
    | .ok pr =>
      match compare_services rest src states tgt with
      | .error e => .error e
      | .ok prs =>
        .ok ((match pr.1 with
              | some d => (h, d) :: prs.1
              | Option.none => prs.1), pr.2 ++ prs.2)

/-- The missing list `compare_services` reports for a host (empty when
the host has no diff entry). -/
def missingOf (diff : List (String × HostDiff)) (h : String) : List String :=
  match diff.lookup h with
  | some d => d.icinga1_missing_icinga2
  | Option.none => []

end Icinga

namespace Icinga

/-- The missing list carried by an optional diff entry. -/
def missingField : Option HostDiff → List String
  | some d => d.icinga1_missing_icinga2
  | Option.none => []

/-- Hosts that were not iterated have no diff entry. -/
theorem compare_services_lookup_none (src : String → List Service1)
    (states : String → List SvcStatus1) (tgt : String → List Service2) :
    ∀ (names : List String) (diff : List (String × HostDiff)) (rep : List String)
      (h : String),
      compare_services names src states tgt = .ok (diff, rep) → h ∉ names →
      diff.lookup h = Option.none := by
  intro names
  induction names with
  | nil =>
    intro diff rep h hok _
    rw [compare_services] at hok
    injection hok with hok
    injection hok with h1 h2
    rw [← h1]
    rfl
  | cons h' rest ih =>
    intro diff rep h hok hn
    have hne : h ≠ h' := fun e => hn (e ▸ List.mem_cons_self _ _)
    have hrest : h ∉ rest := fun m => hn (List.mem_cons_of_mem _ m)
    rw [compare_services] at hok
    cases hpr : compareServicesHost h' (src h') (states h') (tgt h') <;> rw [hpr] at hok <;>
      dsimp only at hok
    · cases hok
    rename_i pr
    cases hprs : compare_services rest src states tgt <;> rw [hprs] at hok <;>
      dsimp only at hok
    · cases hok
    rename_i prs
    injection hok with hok
    have hd : diff = (match pr.1 with
        | some d => (h', d) :: prs.1
        | Option.none => prs.1) := (congrArg Prod.fst hok).symm
    have hrec : prs.1.lookup h = Option.none := ih prs.1 prs.2 h (by rw [hprs]) hrest
    rw [hd]
    cases pr.1 with
    | some d =>
      dsimp only
      rw [List.lookup_cons, show (h == h') = false from beq_false_of_ne hne]
      exact hrec
    | none => exact hrec

/-- For a host among the iterated names, the reported missing list is the
one computed by the per-host body. -/
theorem compare_services_host_missing (src : String → List Service1)
    (states : String → List SvcStatus1) (tgt : String → List Service2) :
    ∀ (names : List String) (diff : List (String × HostDiff)) (rep : List String)
      (h : String),
      compare_services names src states tgt = .ok (diff, rep) →
      h ∈ names → names.Nodup →
      ∃ od rep2, compareServicesHost h (src h) (states h) (tgt h) = .ok (od, rep2)
        ∧ missingOf diff h = missingField od := by
  intro names
  induction names with
  | nil => intro diff rep h _ hmem; cases hmem
  | cons h' rest ih =>
    intro diff rep h hok hmem hnd
    rw [compare_services] at hok
    cases hpr : compareServicesHost h' (src h') (states h') (tgt h') <;> rw [hpr] at hok <;>
      dsimp only at hok
    · cases hok
    rename_i pr
    cases hprs : compare_services rest src states tgt <;> rw [hprs] at hok <;>
      dsimp only at hok
    · cases hok
    rename_i prs
    injection hok with hok
    have hd : diff = (match pr.1 with
        | some d => (h', d) :: prs.1
        | Option.none => prs.1) := (congrArg Prod.fst hok).symm
    by_cases he : h = h'
    · subst he
      refine ⟨pr.1, pr.2, by rw [hpr], ?_⟩
      have hrest : h ∉ rest := (List.nodup_cons.mp hnd).1
      have hnone : prs.1.lookup h = Option.none :=
        compare_services_lookup_none src states tgt rest prs.1 prs.2 h (by rw [hprs]) hrest
      rw [missingOf, hd]
      cases pr.1 with
      | some d =>
        dsimp only
        rw [List.lookup_cons, show (h == h) = true from by simp]
        rfl
      | none =>
        dsimp only
        rw [hnone]
        rfl
    · have hmem' : h ∈ rest := (List.mem_cons.mp hmem).resolve_left he
      have hnd' : rest.Nodup := (List.nodup_cons.mp hnd).2
      obtain ⟨od, rep2, h1, h2⟩ := ih prs.1 prs.2 h (by rw [hprs]) hmem' hnd'
      refine ⟨od, rep2, h1, ?_⟩
      rw [missingOf, hd]
      cases pr.1 with
      | some d =>
        dsimp only
        rw [List.lookup_cons, show (h == h') = false from beq_false_of_ne he]
        exact h2
      | none => exact h2

/-- The per-host body reports exactly the alias-pruned missing list. -/
theorem compareServicesHost_missing_eq (h : String) (src : List Service1)
    (states : List SvcStatus1) (tgtAll : List Service2) (od : Option HostDiff)
    (rep : List String) (comments : List PyVal)
    (hok : compareServicesHost h src states tgtAll = .ok (od, rep))
    (hcm : mapE service2CommentVal (tgtAll.filter (fun s => s.name != "nrpe-health"))
      = .ok comments) :
    missingField od = removeComments
      ((src.map Service1.check_command_extracted).filter
        (fun cc => !((tgtAll.filter (fun s => s.name != "nrpe-health")).map
          Service2.check_command_extracted).contains cc))
      comments := by
  rw [compareServicesHost] at hok
  rw [hcm] at hok
  dsimp only at hok
  cases hfe : foldE (svcCmpStep src states (tgtAll.filter (fun s => s.name != "nrpe-health")))
      ⟨[], [], []⟩
      ((src.map Service1.check_command_extracted)
        ++ ((tgtAll.filter (fun s => s.name != "nrpe-health")).map
            Service2.check_command_extracted)) <;> rw [hfe] at hok <;> dsimp only at hok
  · cases hok
  rename_i acc
  split at hok
  · injection hok with hok
    injection hok with h1 h2
    rw [← h1]
    rfl
  · next hcond =>
    injection hok with hok
    injection hok with h1 h2
    rw [← h1]
    simp only [Bool.or_eq_true, Bool.not_eq_true', not_or, Bool.not_eq_false] at hcond
    rw [missingField, List.isEmpty_iff.mp hcond.1.1]

/-- Each alias removal takes one occurrence; the final count is the
original count minus the number of matching comment values. -/
theorem count_removeComments (x : String) :
    ∀ (comments : List PyVal) (m : List String),
      (removeComments m comments).count x
        = m.count x - comments.countP (fun v => v.eqStr x) := by
  intro comments
  induction comments with
  | nil => intro m; simp [removeComments]
  | cons c rest ih =>
    intro m
    rw [removeComments, List.foldl_cons]
    cases c with
    | str s2 =>
      have hrw : (removeComments (m.erase s2) rest).count x
          = (m.erase s2).count x - rest.countP (fun v => v.eqStr x) := ih (m.erase s2)
      rw [removeComments] at hrw
      rw [hrw, List.count_erase, List.countP_cons]
      simp only [PyVal.eqStr]
      rw [Nat.sub_sub, Nat.add_comm]
    | none =>
      have hrw := ih m
      rw [removeComments] at hrw
      rw [hrw, List.countP_cons]
      simp [PyVal.eqStr]
    | bool b =>
      have hrw := ih m
      rw [removeComments] at hrw
      rw [hrw, List.countP_cons]
      simp [PyVal.eqStr]
    | num q =>
      have hrw := ih m
      rw [removeComments] at hrw
      rw [hrw, List.countP_cons]
      simp [PyVal.eqStr]
    | dict kvs =>
      have hrw := ih m
      rw [removeComments] at hrw
      rw [hrw, List.countP_cons]
      simp [PyVal.eqStr]

end Icinga

namespace Icinga

/-- Counting in the pre-alias missing list: zero when some Target service
carries the command, else the full Source multiplicity. -/
theorem count_filter_not_contains (x : String) (ccs1 ccs2 : List String) :
    (ccs1.filter (fun cc => !ccs2.contains cc)).count x
      = if ccs2.contains x then 0 else ccs1.count x := by
  by_cases hc : ccs2.contains x = true
  · rw [if_pos hc, List.count_eq_zero]
    intro hm
    have h2 := (List.mem_filter.mp hm).2
    rw [hc] at h2
    cases h2
  · rw [if_neg hc]
    have hcf : ccs2.contains x = false := Bool.eq_false_iff.mpr hc
    exact List.count_filter (by rw [hcf]; rfl)

/-- C3: For every host among the compared Target hosts, the missing list
that compare_services reports for it counts each Source extracted check
command as: zero when some Target service of the host (nrpe-health
excluded) has an equal extracted command, otherwise the Source
multiplicity minus one per Target vars.comment value equal to the
command. -/
theorem C3_missing_iff_no_candidate_and_no_alias
    (names : List String) (src : String → List Service1)
    (states : String → List SvcStatus1) (tgt : String → List Service2)
    (diff : List (String × HostDiff)) (rep : List String)
    (h : String) (comments : List PyVal) (x : String)
    (hok : compare_services names src states tgt = .ok (diff, rep))
    (hmem : h ∈ names) (hnd : names.Nodup)
    (hcm : mapE service2CommentVal ((tgt h).filter (fun s => s.name != "nrpe-health"))
      = .ok comments) :
    (missingOf diff h).count x
      = (if (((tgt h).filter (fun s => s.name != "nrpe-health")).map
            Service2.check_command_extracted).contains x then 0
         else ((src h).map Service1.check_command_extracted).count x)
        - comments.countP (fun v => v.eqStr x) := by
  obtain ⟨od, rep2, h1, h2⟩ :=
    compare_services_host_missing src states tgt names diff rep h hok hmem hnd
  rw [h2, compareServicesHost_missing_eq h (src h) (states h) (tgt h) od rep2 comments h1 hcm,
    count_removeComments, count_filter_not_contains]

def c3sA1 : Service1 := ⟨"h1", "A1", "check_a_1", "a", "1", Option.none, Option.none, Option.none⟩
def c3sA2 : Service1 := ⟨"h1", "A2", "check_a_2", "a", "1", Option.none, Option.none, Option.none⟩
def c3sB : Service1 := ⟨"h1", "B", "check_b", "b", "1", Option.none, Option.none, Option.none⟩
def c3tN : Service2 := ⟨"nrpe-health", "NRPE", "nrpe", true, Option.none, "", .dict []⟩
def c3tB : Service2 := ⟨"tb", "TB", "b", true, Option.none, "", .dict [("comment", .str "a")]⟩
def c3st1 : SvcStatus1 := ⟨"check_b", "B", "1"⟩

def c3src : String → List Service1 := fun h => if h == "h1" then [c3sA1, c3sA2, c3sB] else []
def c3states : String → List SvcStatus1 := fun h => if h == "h1" then [c3st1] else []
def c3tgt : String → List Service2 := fun h => if h == "h1" then [c3tN, c3tB] else []
def c3diff : List (String × HostDiff) := [("h1", ⟨"h1", ["a"], [], [], []⟩)]
def c3rep : List String :=
  ["\nh1\n", "Icinga1 services missing in Icinga2:\n", "a\n", "\n"]

/-- Witness for C3: two Source services both extracting command a, one
Target alias comment a — exactly one occurrence of a stays missing. -/
theorem C3_missing_iff_no_candidate_and_no_alias_witness :
    (missingOf c3diff "h1").count "a"
      = (if (((c3tgt "h1").filter (fun s => s.name != "nrpe-health")).map
            Service2.check_command_extracted).contains "a" then 0
         else ((c3src "h1").map Service1.check_command_extracted).count "a")
        - [PyVal.str "a"].countP (fun v => v.eqStr "a") :=
  C3_missing_iff_no_candidate_and_no_alias ["h1"] c3src c3states c3tgt
    c3diff c3rep "h1" [PyVal.str "a"] "a" rfl (by decide) (by decide) rfl

end Icinga

namespace Icinga

/-- One comparison step never writes the notes-url field: the per-pair
notes values are computed and discarded. -/
theorem svcCmpStep_notesurl (src : List Service1) (states : List SvcStatus1)
    (tgt2 : List Service2) (acc : SvcCmpAcc) (cc : String) (acc' : SvcCmpAcc)
    (h : svcCmpStep src states tgt2 acc cc = .ok acc') :
    acc'.notesurl_diff = acc.notesurl_diff := by
  rw [svcCmpStep] at h
  split at h
  · split at h
    · cases h
    · injection h with h
      rw [← h]
      split <;> split <;> rfl
  · injection h with h
    rw [← h]

/-- Folding the comparison steps never writes the notes-url field. -/
theorem foldE_notesurl (src : List Service1) (states : List SvcStatus1)
    (tgt2 : List Service2) :
    ∀ (l : List String) (acc acc' : SvcCmpAcc),
      foldE (svcCmpStep src states tgt2) acc l = .ok acc' →
      acc'.notesurl_diff = acc.notesurl_diff := by
  intro l
  induction l with
  | nil =>
    intro acc acc' h
    rw [foldE] at h
    injection h with h
    rw [← h]
  | cons x xs ih =>
    intro acc acc' h
    rw [foldE] at h
    cases hs : svcCmpStep src states tgt2 acc x <;> rw [hs] at h <;> dsimp only at h
    · cases h
    rename_i t
    rw [ih t acc' h, svcCmpStep_notesurl src states tgt2 acc x t hs]

/-- The per-host diff entry, when produced, carries an empty notes-url
field. -/
theorem compareServicesHost_notesurl (h : String) (src : List Service1)
    (states : List SvcStatus1) (tgtAll : List Service2) (od : Option HostDiff)
    (rep : List String)
    (hok : compareServicesHost h src states tgtAll = .ok (od, rep)) :
    ∀ d, od = some d → d.notesurl_diff = [] := by
  rw [compareServicesHost] at hok
  cases hcm : mapE service2CommentVal (tgtAll.filter (fun s => s.name != "nrpe-health")) <;>
    rw [hcm] at hok <;> dsimp only at hok
  · cases hok
  rename_i comments
  cases hfe : foldE (svcCmpStep src states (tgtAll.filter (fun s => s.name != "nrpe-health")))
      ⟨[], [], []⟩
      ((src.map Service1.check_command_extracted)
        ++ ((tgtAll.filter (fun s => s.name != "nrpe-health")).map
            Service2.check_command_extracted)) <;> rw [hfe] at hok <;> dsimp only at hok
  · cases hok
  rename_i acc
  have hnu : acc.notesurl_diff = [] :=
    foldE_notesurl src states (tgtAll.filter (fun s => s.name != "nrpe-health")) _ _ acc hfe
  split at hok
  · injection hok with hok
    injection hok with h1 h2
    intro d hd
    rw [← h1] at hd
    injection hd with hd
    rw [← hd]
    show extendKeysArtifact acc.notesurl_diff = []
    rw [hnu]
    rfl
  · injection hok with hok
    injection hok with h1 h2
    intro d hd
    rw [← h1] at hd
    cases hd

/-- No diff entry produced by compare_services carries notes-url
content. -/
theorem compare_services_notesurl (src : String → List Service1)
    (states : String → List SvcStatus1) (tgt : String → List Service2) :
    ∀ (names : List String) (diff : List (String × HostDiff)) (rep : List String),
      compare_services names src states tgt = .ok (diff, rep) →
      ∀ p ∈ diff, (Prod.snd p).notesurl_diff = [] := by
  intro names
  induction names with
  | nil =>
    intro diff rep hok p hp
    rw [compare_services] at hok
    injection hok with hok
    injection hok with h1 h2
    rw [← h1] at hp
    cases hp
  | cons h' rest ih =>
    intro diff rep hok p hp
    rw [compare_services] at hok
    cases hpr : compareServicesHost h' (src h') (states h') (tgt h') <;> rw [hpr] at hok <;>
      dsimp only at hok
    · cases hok
    rename_i pr
    cases hprs : compare_services rest src states tgt <;> rw [hprs] at hok <;>
      dsimp only at hok
    · cases hok
    rename_i prs
    injection hok with hok
    injection hok with h1 h2
    rw [← h1] at hp
    cases hod : pr.1 with
    | some d =>
      rw [hod] at hp
      dsimp only at hp
      cases hp with
      | head =>
        exact compareServicesHost_notesurl h' (src h') (states h') (tgt h') pr.1 pr.2
          (by rw [hpr]) d hod
      | tail _ hp2 => exact ih prs.1 prs.2 (by rw [hprs]) p hp2
    | none =>
      rw [hod] at hp
      exact ih prs.1 prs.2 (by rw [hprs]) p hp

/-- C8: compare_services never includes a notes-url discrepancy: every
diff entry any run produces has an empty notes-url field, even when a
correlated Source/Target pair has differing notes_url values (the code
reads both values and discards them, and the notes-url report section is
guarded by this always-empty field). -/
theorem C8_notesurl_diff_never_populated
    (names : List String) (src : String → List Service1)
    (states : String → List SvcStatus1) (tgt : String → List Service2)
    (diff : List (String × HostDiff)) (rep : List String)
    (hok : compare_services names src states tgt = .ok (diff, rep)) :
    ∀ p ∈ diff, (Prod.snd p).notesurl_diff = [] :=
  compare_services_notesurl src states tgt names diff rep hok

def c8s1 : Service1 := ⟨"h1", "S", "check_a", "a", "0", Option.none, Option.none, some "u1"⟩
def c8st : SvcStatus1 := ⟨"check_a", "S", "0"⟩
def c8t : Service2 := ⟨"t", "T", "a", true, Option.none, "u2", .dict []⟩
def c8src : String → List Service1 := fun h => if h == "h1" then [c8s1] else []
def c8states : String → List SvcStatus1 := fun h => if h == "h1" then [c8st] else []
def c8tgt : String → List Service2 := fun h => if h == "h1" then [c8t] else []
def c8d : HostDiff := ⟨"h1", [], ["command", "icinga1", "icinga2"], [], []⟩
def c8diff : List (String × HostDiff) := [("h1", c8d)]
def c8rep : List String :=
  ["\nh1\n", "Different notification states:\n",
   "Service: check_a - S, Icinga1: False, Icinga2: True\n"]

/-- Witness for C8: a correlated pair whose Source notes_url is u1 and
Target notes_url is u2 yields a diff entry (from a notification-state
difference) whose notes-url field is nonetheless empty. -/
theorem C8_notesurl_diff_never_populated_witness :
    (Prod.snd ("h1", c8d)).notesurl_diff = [] :=
  C8_notesurl_diff_never_populated ["h1"] c8src c8states c8tgt c8diff c8rep
    rfl ("h1", c8d) (by decide)

end Icinga
